import Mathlib

/-!
# Verification of the researchly crawl/scrape subsystem

A shallow embedding of the crawl orchestrator, fetch strategies, content
quality gates, scrape cache, and scrape-candidate selection of the
repository, together with theorems settling the frozen claims about it.

JavaScript strings are modelled by Lean `String` (with helper operations
defined over the underlying `List Char`, mirroring the JS semantics of
`substring`, `includes`, `startsWith`, `trim`, `replaceAll` and regex
tests used by the source).  JS `Map` objects (insertion-ordered) are
modelled by association lists.  Network calls and the Cheerio HTML
parser are modelled as oracle functions supplied in an environment
record; everything downstream of those oracles is embedded concretely
from the source.
-/

namespace Researchly

/-! ## Basic string helpers (JS semantics) -/

/-- JS `s.substring(0, n)` for `n ≥ 0`. -/
def jsSubstring (s : String) (n : Nat) : String := ⟨s.data.take n⟩

/-- Contiguous-sublist (infix) test on character lists. -/
def infixCheck (pat : List Char) : List Char → Bool
  | [] => pat.isEmpty
  | c :: rest => pat.isPrefixOf (c :: rest) || infixCheck pat rest

/-- JS `s.includes(pat)` (substring containment). -/
def jsIncludes (s pat : String) : Bool := infixCheck pat.data s.data

/-- JS `s.startsWith(pat)`. -/
def jsStartsWith (s pat : String) : Bool := pat.data.isPrefixOf s.data

/-- JS `\s` whitespace class (restricted to the ASCII whitespace the
source texts contain). -/
def jsWs (c : Char) : Bool := c.isWhitespace

/-- JS `s.trim()`: drop leading and trailing whitespace. -/
def jsTrimList (l : List Char) : List Char :=
  ((l.dropWhile jsWs).reverse.dropWhile jsWs).reverse

def jsTrim (s : String) : String := ⟨jsTrimList s.data⟩

/-- Case-insensitive prefix test used to model `/literal/gi` matching. -/
def isPrefixCI (pat l : List Char) : Bool :=
  (l.take pat.length).map Char.toLower == pat.map Char.toLower

/-- Remove every (non-overlapping, left-to-right) case-insensitive
occurrence of `pat`, as JS `replaceAll(/pat/gi, "")` does. -/
def removeAllCI (pat : List Char) (l : List Char) : List Char :=
  match l with
  | [] => []
  | c :: rest =>
    if 0 < pat.length ∧ isPrefixCI pat (c :: rest) = true then
      removeAllCI pat (rest.drop (pat.length - 1))
    else c :: removeAllCI pat rest
termination_by l.length
decreasing_by
  · simp only [List.length_cons, List.length_drop]
    omega
  · simp only [List.length_cons]
    omega

/-! ## Content post-processing and quality gates
(from `content.ts`: `removeJunkPatterns`, `isLowQualityContent`) -/

/-- The `JUNK_PATTERNS` list of `content.ts` (each is a case-insensitive
literal pattern). -/
def JUNK_PATTERNS : List (List Char) :=
  ["cookie policy".data, "accept cookies".data, "privacy policy".data,
   "terms of service".data, "subscribe to newsletter".data,
   "follow us on".data, "share this article".data]

/-- `removeJunkPatterns` from `content.ts`: strip each junk pattern in
order, then trim. -/
def removeJunkPatterns (text : String) : String :=
  jsTrim ⟨JUNK_PATTERNS.foldl (fun acc pat => removeAllCI pat acc) text.data⟩

/-- Word character class for the regex `\b` boundary: `[A-Za-z0-9_]`. -/
def isWordChar (c : Char) : Bool := c.isAlphanum || c == '_'

/-- Skip a run of digits. -/
def afterDigits : List Char → List Char
  | [] => []
  | c :: rest => if c.isDigit then afterDigits rest else c :: rest

/-- Does the suffix match `\d+:[A-Z]\[` (the digit run is maximal, the
regex backtracking cannot succeed with a shorter run since the next
char would still be a digit)? The caller ensures the suffix starts with
a digit. -/
def transportAt (l : List Char) : Bool :=
  match afterDigits l with
  | ':' :: u :: '[' :: _ => u.isUpper
  | _ => false

/-- Scan for a match of `/\b\d+:[A-Z]\[/` anywhere in the text.
`prev` is the character just before the current position (`none` at the
start); `\b` holds there iff `prev` is absent or a non-word char, since
a digit is a word char. -/
def transportScan : Option Char → List Char → Bool
  | _, [] => false
  | prev, c :: rest =>
    ((match prev with
      | none => true
      | some p => !isWordChar p) && c.isDigit && transportAt (c :: rest))
    || transportScan (some c) rest

/-- `/\b\d+:[A-Z]\[/.test(text)` from `isLowQualityContent`. -/
def hasTransportMarkers (s : String) : Bool := transportScan none s.data

/-- Number of maximal whitespace runs in the character list; `inWs`
records whether the previous character was whitespace. -/
def wsRuns : List Char → Bool → Nat
  | [], _ => 0
  | c :: rest, inWs =>
    if jsWs c then (if inWs then 0 else 1) + wsRuns rest true
    else wsRuns rest false

/-- JS `text.split(/\s+/).length`: one more than the number of maximal
whitespace runs (empty fields at either end are retained by JS). -/
def splitWsCount (s : String) : Nat := wsRuns s.data false + 1

/-- Count of maximal alphabetic runs of length at least 4, i.e. the
number of matches of `/[A-Za-z]{4,}/g` (the greedy quantifier consumes
each whole run). `run` is the length of the current run. -/
def alphaRunCount : List Char → Nat → Nat
  | [], run => if 4 ≤ run then 1 else 0
  | c :: rest, run =>
    if c.isAlpha then alphaRunCount rest (run + 1)
    else (if 4 ≤ run then 1 else 0) + alphaRunCount rest 0

def alphaWordCount (s : String) : Nat := alphaRunCount s.data 0

/-- Low-quality content detection thresholds from `content.ts`. -/
def LOW_QUALITY_MIN_TOKEN_COUNT : Nat := 60

/-- `isLowQualityContent` from `content.ts`.  The readability ratio test
`alphaWordCount / tokenCount < 0.35` is expressed over naturals as
`20 * alphaWordCount < 7 * tokenCount` (the token count is positive, so
the division-free form is exact; the JS `tokenCount === 0` guard is
unreachable because `split` never returns an empty array). -/
def isLowQualityContent (text : String) : Bool :=
  let hasTransport := hasTransportMarkers text
  let hasChunkRuntimeNoise := jsIncludes text "__next_f" || jsIncludes text "webpackChunk"
  let tokenCount := splitWsCount text
  let alphaWords := alphaWordCount text
  hasTransport || hasChunkRuntimeNoise ||
    (decide (LOW_QUALITY_MIN_TOKEN_COUNT < tokenCount) &&
     decide (20 * alphaWords < 7 * tokenCount))

/-! ## Fetch strategy contracts (from `types.ts`) -/

/-- `FetchErrorCode` from `types.ts`. -/
inductive FetchErrorCode where
  | HTTP_CLIENT_ERROR
  | HTTP_SERVER_ERROR
  | TIMEOUT
  | NOT_HTML
  | FETCH_FAILED
deriving DecidableEq, Repr

/-- `FetchResult` from `types.ts`: tagged union of a successful HTML
payload and a classified failure. -/
inductive FetchResult where
  | ok (html contentType : String)
  | err (errorCode : FetchErrorCode) (message : String)
deriving DecidableEq, Repr

/-- `ScrapeResult` from the crawl orchestrator.  Optional JS fields are
`Option`s; a field left `undefined` by the source is `none`. -/
structure ScrapeResult where
  title : String
  content : String
  summary : Option String
  needsJsRendering : Option Bool
  error : Option String
  errorCode : Option String
deriving DecidableEq, Repr

/-! ## Crawl orchestrator constants (from the crawl orchestrator file) -/

def MAX_CONTENT_LENGTH : Nat := 12000
def MIN_CONTENT_LENGTH : Nat := 100
def SUMMARY_MAX_LENGTH : Nat := 500
def SCRAPE_CACHE_MAX_ENTRIES : Nat := 100
def ERROR_CACHE_TTL_MS : Nat := 30000

/-! ## Fallback predicates (crawl orchestrator) -/

/-- `shouldAttemptBrowserless`: attempt Browserless for network-level
failures likely fixed by headless rendering. -/
def shouldAttemptBrowserless (errorCode : FetchErrorCode) : Bool :=
  errorCode == FetchErrorCode.HTTP_CLIENT_ERROR ||
  errorCode == FetchErrorCode.TIMEOUT ||
  errorCode == FetchErrorCode.FETCH_FAILED

/-- `shouldRetryBrowserlessAfterExtractionFailure`: retry with
Browserless when native HTML extracts to unusably short content. -/
def shouldRetryBrowserlessAfterExtractionFailure (errorMessage : String) : Bool :=
  jsIncludes errorMessage "Content too short" ||
  jsIncludes errorMessage "Content quality check failed"

/-! ## Content extraction (`extractAndClean`)

The Cheerio-dependent extractors (`extractPageMetadata`,
`needsJsRendering`, `extractRscContent`, `extractMainContent`) run over
a parsed HTML tree; their outputs on a given document are modelled as an
`ExtractParts` record produced by an oracle `parse` function.  Everything
`extractAndClean` does with those outputs is embedded concretely. -/

/-- Output of `extractPageMetadata` (the fields `extractAndClean`
reads). `title` is an element text (always a string, possibly empty);
`ogTitle`/`description` are attribute reads (possibly `undefined`). -/
structure PageMeta where
  title : String
  ogTitle : Option String
  description : Option String
deriving DecidableEq, Repr

/-- Results of the Cheerio-based extractors on one HTML document. -/
structure ExtractParts where
  meta : PageMeta
  needsRender : Bool
  rsc : String
  main : String
deriving DecidableEq, Repr

/-- JS `a || b` for a string `a` (empty string is falsy). -/
def jsOrS (a b : String) : String := if a = "" then b else a

/-- JS `a || b` for a possibly-undefined string `a`. -/
def jsOrO (a : Option String) (b : String) : String :=
  match a with
  | some s => if s = "" then b else s
  | none => b

/-- `extractHostnameForDisplay`: hostname of the URL, or the URL's first
50 characters when URL parsing fails.  URL parsing is an oracle. -/
def extractHostnameForDisplay (parseHost : String → Option String) (url : String) : String :=
  match parseHost url with
  | some h => h
  | none => jsSubstring url 50

/-- The `rscContent`/`extractedContent`/`content` chain of
`extractAndClean`: prefer the RSC payload when the page needs JS
rendering and the payload is long enough, else the main content; then
truncate to `MAX_CONTENT_LENGTH` with an ellipsis. -/
def truncatedContent (p : ExtractParts) : String :=
  let rscContent := if p.needsRender then p.rsc else ""
  let extractedContent :=
    if MIN_CONTENT_LENGTH ≤ rscContent.length then rscContent else p.main
  if MAX_CONTENT_LENGTH < extractedContent.length then
    jsSubstring extractedContent MAX_CONTENT_LENGTH ++ "..."
  else extractedContent

/-- `extractAndClean` from the crawl orchestrator, over the extractor
outputs `p` for the fetched HTML.  Throwing is modelled by `Except`. -/
def extractAndClean (parseHost : String → Option String) (url : String)
    (p : ExtractParts) : Except String ScrapeResult :=
  let content := truncatedContent p
  let title :=
    jsOrS p.meta.title
      (jsOrO p.meta.ogTitle
        (jsOrO p.meta.description (extractHostnameForDisplay parseHost url)))
  let cleanedContent := removeJunkPatterns content
  if cleanedContent.length < MIN_CONTENT_LENGTH then
    Except.error ("Content too short after cleaning (" ++
      toString cleanedContent.length ++ " characters)")
  else if isLowQualityContent cleanedContent then
    Except.error "Content quality check failed (non-readable extraction)"
  else
    let summaryLength := min SUMMARY_MAX_LENGTH cleanedContent.length
    let summary := jsSubstring cleanedContent summaryLength ++
      (if summaryLength < cleanedContent.length then "..." else "")
    Except.ok
      { title := title
        content := cleanedContent
        summary := some summary
        needsJsRendering := some p.needsRender
        error := none
        errorCode := none }

/-! ## Scrape cache (crawl orchestrator)

A JS `Map` keyed by validated URL, modelled as an association list in
insertion order (`Map.set` on an existing key keeps its position;
a fresh key is appended at the end). -/

structure CacheEntry where
  exp : Nat
  val : ScrapeResult
deriving DecidableEq, Repr

abbrev Cache := List (String × CacheEntry)

/-- `Map.set`: replace in place when the key exists, else append. -/
def mapSet (c : Cache) (k : String) (v : CacheEntry) : Cache :=
  if c.any (fun kv => kv.1 = k) then
    c.map (fun kv => if kv.1 = k then (k, v) else kv)
  else c ++ [(k, v)]

/-- Association lookup (`Map.get`). -/
def mapGet (c : Cache) (k : String) : Option CacheEntry :=
  (c.find? (fun kv => kv.1 = k)).map (fun kv => kv.2)

/-- `Map.delete` (keys are unique in a JS map, so filtering matches). -/
def mapDelete (c : Cache) (k : String) : Cache :=
  c.filter (fun kv => kv.1 ≠ k)

/-- `getCachedScrape`: purge every expired entry, then look up the key;
on a hit, move the entry to the end (LRU refresh) and return its value.
Returns the hit (if any) and the updated cache. -/
def getCachedScrape (c : Cache) (now : Nat) (url : String) :
    Option ScrapeResult × Cache :=
  let purged := c.filter (fun kv => ¬ kv.2.exp ≤ now)
  match mapGet purged url with
  | some entry =>
    if now < entry.exp then
      (some entry.val, mapDelete purged url ++ [(url, entry)])
    else (none, purged)
  | none => (none, purged)

/-- The `while (cache.size > SCRAPE_CACHE_MAX_ENTRIES)` eviction loop of
`cacheScrapeResult`: repeatedly delete the oldest-inserted entry; the JS
`if (!oldestKey) break` guard also stops on an empty-string key (a falsy
string). -/
def enforceCapacity (c : Cache) : Cache :=
  if SCRAPE_CACHE_MAX_ENTRIES < c.length then
    match c with
    | [] => []
    | (k, v) :: rest => if k = "" then (k, v) :: rest else enforceCapacity rest
  else c
termination_by c.length

/-- `cacheScrapeResult`: insert/overwrite, then evict down to capacity. -/
def cacheScrapeResult (c : Cache) (url : String) (val : ScrapeResult)
    (ttlMs now : Nat) : Cache :=
  enforceCapacity (mapSet c url { exp := now + ttlMs, val := val })

/-! ## Crawl orchestrator (`scrapeWithCheerio` and friends)

The network strategies (`fetchNative`, `fetchBrowserless`), URL
validation (`validateScrapeUrl`, defined outside the crawl module) and
URL hostname parsing (`new URL(url).hostname`) are oracle functions in a
`CrawlEnv`.  `tryExtract` is the try/catch wrapper
`tryExtractAndClean`; for theorems that need the concrete extractor it
is instantiated with `extractAndClean` composed with a Cheerio-parse
oracle. -/

structure CrawlEnv where
  validate : String → Except String String
  fetchNative : String → FetchResult
  fetchBrowserless : String → FetchResult
  tryExtract : String → String → Except String ScrapeResult
  parseHostname : String → Option String
  successTtlMs : Nat

/-- `classifyError` from the crawl orchestrator. -/
def classifyError (message : String) : String :=
  if jsIncludes message "HTTP 4" then "HTTP_CLIENT_ERROR"
  else if jsIncludes message "HTTP 5" then "HTTP_SERVER_ERROR"
  else if jsIncludes message "timeout" then "TIMEOUT"
  else if jsIncludes message "Content too short" then "CONTENT_TOO_SHORT"
  else if jsIncludes message "Not an HTML" then "NOT_HTML"
  else "SCRAPE_FAILED"

/-- `buildErrorResult` from the crawl orchestrator. -/
def buildErrorResult (parseHost : String → Option String) (url errorMessage errorCode : String) :
    ScrapeResult :=
  let hostname := extractHostnameForDisplay parseHost url
  { title := hostname
    content := "Unable to fetch content from " ++ url ++ ": " ++ errorMessage
    summary := some ("Content unavailable from " ++ hostname)
    needsJsRendering := some false
    error := some errorMessage
    errorCode := some errorCode }

/-- The early-return result of `scrapeWithCheerio` when
`validateScrapeUrl` rejects the input. -/
def invalidUrlResult (url validationError : String) : ScrapeResult :=
  { title := "invalid_url"
    content := "Unable to fetch content from " ++ url ++ ": " ++ validationError
    summary := some validationError
    needsJsRendering := some false
    error := some ("Invalid URL: " ++ validationError)
    errorCode := some "INVALID_URL" }

/-- Outcome of `fetchWithFallback`: the fetched HTML with its source
(`true` = native) or the thrown message, plus how many times each
strategy was invoked. -/
structure FetchFbOutcome where
  outcome : Except String (String × Bool)
  nativeCalls : Nat
  browserlessCalls : Nat
deriving Repr

/-- `fetchWithFallback` from the crawl orchestrator: try native fetch
first; on a failure `shouldAttemptBrowserless` accepts, fall back to
Browserless once; otherwise rethrow the native message. -/
def fetchWithFallback (env : CrawlEnv) (url : String) : FetchFbOutcome :=
  match env.fetchNative url with
  | FetchResult.ok html _ =>
    { outcome := Except.ok (html, true), nativeCalls := 1, browserlessCalls := 0 }
  | FetchResult.err code msg =>
    if shouldAttemptBrowserless code then
      match env.fetchBrowserless url with
      | FetchResult.ok html _ =>
        { outcome := Except.ok (html, false), nativeCalls := 1, browserlessCalls := 1 }
      | FetchResult.err _ bmsg =>
        { outcome := Except.error (msg ++ "; Browserless fallback failed: " ++ bmsg),
          nativeCalls := 1, browserlessCalls := 1 }
    else
      { outcome := Except.error msg, nativeCalls := 1, browserlessCalls := 0 }

/-- `retryExtractionWithBrowserless` from the crawl orchestrator:
re-fetch via Browserless and re-run extraction on that HTML; rethrows a
combined message when either step fails.  Always performs exactly one
Browserless call. -/
def retryExtractionWithBrowserless (env : CrawlEnv) (url nativeError : String) :
    Except String ScrapeResult :=
  match env.fetchBrowserless url with
  | FetchResult.err _ m =>
    Except.error ("Native extraction failed: " ++ nativeError ++
      "; Browserless fetch failed: " ++ m)
  | FetchResult.ok html _ =>
    match env.tryExtract url html with
    | Except.ok r => Except.ok r
    | Except.error e2 =>
      Except.error ("Native extraction failed: " ++ nativeError ++
        "; Browserless extraction failed: " ++ e2)

/-- One `scrapeWithCheerio` call's observable outcome: the returned
`ScrapeResult`, the cache afterwards, and the per-strategy call counts. -/
structure ScrapeOutcome where
  result : ScrapeResult
  cache : Cache
  nativeCalls : Nat
  browserlessCalls : Nat
deriving Repr

/-- The success tail of `scrapeWithCheerio`: cache under the success TTL
and return. -/
def successFinish (env : CrawlEnv) (c : Cache) (now : Nat) (u : String)
    (r : ScrapeResult) (n b : Nat) : ScrapeOutcome :=
  { result := r
    cache := cacheScrapeResult c u r env.successTtlMs now
    nativeCalls := n
    browserlessCalls := b }

/-- The catch block of `scrapeWithCheerio`: classify the message, build
the placeholder error result, cache it under the error TTL, return it. -/
def errorFinish (env : CrawlEnv) (c : Cache) (now : Nat) (u msg : String)
    (n b : Nat) : ScrapeOutcome :=
  let errorCode := classifyError msg
  let val := buildErrorResult env.parseHostname u msg errorCode
  { result := val
    cache := cacheScrapeResult c u val ERROR_CACHE_TTL_MS now
    nativeCalls := n
    browserlessCalls := b }

/-- `scrapeWithCheerio` from the crawl orchestrator.  `now` stands for
`Date.now()` during this call. -/
def scrapeModel (env : CrawlEnv) (cache : Cache) (now : Nat) (url : String) :
    ScrapeOutcome :=
  match env.validate url with
  | Except.error e =>
    { result := invalidUrlResult url e, cache := cache,
      nativeCalls := 0, browserlessCalls := 0 }
  | Except.ok u =>
    match getCachedScrape cache now u with
    | (some v, c') =>
      { result := v, cache := c', nativeCalls := 0, browserlessCalls := 0 }
    | (none, c') =>
      match fetchWithFallback env u with
      | { outcome := Except.error msg, nativeCalls := n, browserlessCalls := b } =>
        errorFinish env c' now u msg n b
      | { outcome := Except.ok (html, isNative), nativeCalls := n, browserlessCalls := b } =>
        match env.tryExtract u html with
        | Except.ok r => successFinish env c' now u r n b
        | Except.error e =>
          if isNative && shouldRetryBrowserlessAfterExtractionFailure e then
            match retryExtractionWithBrowserless env u e with
            | Except.ok r => successFinish env c' now u r n (b + 1)
            | Except.error m => errorFinish env c' now u m n (b + 1)
          else errorFinish env c' now u e n b

/-! ## Scrape-candidate selection (`selectScrapeTargets`) -/

/-- `ScrapeCandidate` from the scrape-phase module: the minimal search
result shape (`relevanceScore` is optional).  Scores are modelled as
integers; the comparator only uses their ordering. -/
structure ScrapeCandidate where
  url : String
  relevanceScore : Option Int
deriving DecidableEq, Repr

/-- `r.relevanceScore || 0` (missing score treated as 0). -/
def candScore (r : ScrapeCandidate) : Int := r.relevanceScore.getD 0

/-- One JS `Map.set` step of building `new Map(l.map(r => [r.url, r]))`:
an existing key keeps its (first-occurrence) position but takes the new
value; a fresh key is appended. -/
def dedupStep (acc : List ScrapeCandidate) (r : ScrapeCandidate) : List ScrapeCandidate :=
  if acc.any (fun x => x.url = r.url) then
    acc.map (fun x => if x.url = r.url then r else x)
  else acc ++ [r]

/-- `Array.from(new Map(l.map(r => [r.url, r])).values())`. -/
def dedupByUrl (l : List ScrapeCandidate) : List ScrapeCandidate :=
  l.foldl dedupStep []

/-- Stable insertion for a descending sort by score: the new element
(which comes later in the input) goes after every element of equal or
greater score. -/
def insertByScoreDesc (x : ScrapeCandidate) : List ScrapeCandidate → List ScrapeCandidate
  | [] => [x]
  | y :: ys =>
    if candScore x ≤ candScore y then y :: insertByScoreDesc x ys
    else x :: y :: ys

/-- Stable sort by relevance score descending, processing the input left
to right (JS `Array.prototype.sort` is stable; the comparator
`(b.relevanceScore || 0) - (a.relevanceScore || 0)` orders by score
descending). -/
def sortByScoreDesc (l : List ScrapeCandidate) : List ScrapeCandidate :=
  l.foldl (fun acc x => insertByScoreDesc x acc) []

/-- `selectScrapeTargets` from the scrape-phase module: dedupe by URL
(last value wins, first-occurrence order), keep only URLs starting with
"http", stable-sort by relevance descending, truncate to `maxUrls`. -/
def selectScrapeTargets (searchResults : List ScrapeCandidate) (maxUrls : Nat) :
    List ScrapeCandidate :=
  ((sortByScoreDesc
      ((dedupByUrl searchResults).filter (fun r => jsStartsWith r.url "http"))).take
    maxUrls)

/-! ## Browserless fetch strategy (`browserless_generic.ts`)

The network is an oracle: `contentNet i` is what the `i`-th POST to the
`/content` endpoint does (1-based), `unblockNet` what the single POST to
`/unblock` would do.  Everything after the raw response — wrapper-status
classification, `X-Response-Code` header handling, empty-body handling,
the retry/backoff/unblock loop — is embedded concretely. -/

def RATE_LIMIT_HTTP_STATUS : Nat := 429
def MAX_BROWSERLESS_ATTEMPTS : Nat := 2
def RETRY_BASE_DELAY_MS : Nat := 250

/-- What one POST to the Browserless `/content` endpoint did at the
transport level: the `fetch` threw, or the wrapper returned a non-2xx
status, or it returned 2xx with an (already parsed) `X-Response-Code`
header and a body. -/
inductive ContentNetOutcome where
  | threw (message : String)
  | httpError (status : Nat) (statusText : String)
  | okResp (siteStatus : Option Nat) (body : String)
deriving DecidableEq, Repr

/-- `BrowserlessCallResult` from `browserless_generic.ts`. -/
inductive BLCallResult where
  | ok (html : String)
  | err (errorCode : FetchErrorCode) (message : String)
      (shouldRetry shouldTryUnblock : Bool)
deriving DecidableEq, Repr

/-- `classifyHttpStatus` from `browserless_generic.ts`. -/
def classifyHttpStatus (status : Nat) (message : String) : BLCallResult :=
  BLCallResult.err
    (if 400 ≤ status ∧ status < 500 then FetchErrorCode.HTTP_CLIENT_ERROR
     else FetchErrorCode.HTTP_SERVER_ERROR)
    message
    (status = RATE_LIMIT_HTTP_STATUS ∨ 500 ≤ status)
    (status = 403)

/-- `callContentApi` from `browserless_generic.ts`, applied to the
transport outcome of one attempt. -/
def callContentApi (o : ContentNetOutcome) : BLCallResult :=
  match o with
  | ContentNetOutcome.threw message =>
    let isTimeout := jsIncludes message "timeout" || jsIncludes message "abort"
    BLCallResult.err
      (if isTimeout then FetchErrorCode.TIMEOUT else FetchErrorCode.FETCH_FAILED)
      ("Browserless: " ++ message) isTimeout false
  | ContentNetOutcome.httpError status statusText =>
    classifyHttpStatus status
      ("Browserless API error: HTTP " ++ toString status ++ " " ++ statusText)
  | ContentNetOutcome.okResp siteStatus body =>
    match siteStatus with
    | some s =>
      if 400 ≤ s then
        classifyHttpStatus s ("Target site returned " ++ toString s ++ " via Browserless")
      else if (jsTrim body).length = 0 then
        BLCallResult.err FetchErrorCode.FETCH_FAILED "Browserless returned empty HTML" false false
      else BLCallResult.ok body
    | none =>
      if (jsTrim body).length = 0 then
        BLCallResult.err FetchErrorCode.FETCH_FAILED "Browserless returned empty HTML" false false
      else BLCallResult.ok body

/-- What the single `/unblock` call would yield (its internal JSON and
status handling collapsed to the resulting `BLCallResult`; `callUnblockApi`
never sets `shouldRetry`/`shouldTryUnblock`). -/
structure BrowserlessEnv where
  hasToken : Bool
  contentNet : Nat → ContentNetOutcome
  unblockResult : BLCallResult

/-- Observable outcome of one `fetchBrowserless` call: the strategy
result, the number of `/content` attempts, the number of `/unblock`
calls, and the backoff sleeps performed (in ms). -/
structure BLOutcome where
  result : FetchResult
  contentCalls : Nat
  unblockCalls : Nat
  sleeps : List Nat
deriving Repr

/-- The body of the `fetchBrowserless` retry loop from attempt number
`attempt` on (1-based), with `fuel` remaining iterations. -/
def fetchBrowserlessLoop (env : BrowserlessEnv) (attempt fuel : Nat)
    (contentCalls unblockCalls : Nat) (sleeps : List Nat) : BLOutcome :=
  match fuel with
  | 0 =>
    { result := FetchResult.err FetchErrorCode.FETCH_FAILED
        "Browserless fetch failed after retries"
      contentCalls := contentCalls, unblockCalls := unblockCalls, sleeps := sleeps }
  | fuel' + 1 =>
    match callContentApi (env.contentNet attempt) with
    | BLCallResult.ok html =>
      { result := FetchResult.ok html "text/html"
        contentCalls := contentCalls + 1, unblockCalls := unblockCalls, sleeps := sleeps }
    | BLCallResult.err code message shouldRetry shouldTryUnblock =>
      if shouldTryUnblock then
        match env.unblockResult with
        | BLCallResult.ok html =>
          { result := FetchResult.ok html "text/html"
            contentCalls := contentCalls + 1, unblockCalls := unblockCalls + 1,
            sleeps := sleeps }
        | BLCallResult.err ucode _ _ _ =>
          { result := FetchResult.err ucode
              (message ++ "; " ++ unblockMessage env.unblockResult)
            contentCalls := contentCalls + 1, unblockCalls := unblockCalls + 1,
            sleeps := sleeps }
      else if !shouldRetry || attempt = MAX_BROWSERLESS_ATTEMPTS then
        { result := FetchResult.err code message
          contentCalls := contentCalls + 1, unblockCalls := unblockCalls,
          sleeps := sleeps }
      else
        fetchBrowserlessLoop env (attempt + 1) fuel' (contentCalls + 1)
          unblockCalls (sleeps ++ [RETRY_BASE_DELAY_MS * 2 ^ (attempt - 1)])
where
  unblockMessage : BLCallResult → String
    | BLCallResult.ok _ => ""
    | BLCallResult.err _ m _ _ => m

/-- `fetchBrowserless` from `browserless_generic.ts`: missing token is a
typed `FETCH_FAILED`; otherwise run the attempt loop (the `for` loop
bound gives the fuel). -/
def fetchBrowserlessModel (env : BrowserlessEnv) : BLOutcome :=
  if env.hasToken then
    fetchBrowserlessLoop env 1 MAX_BROWSERLESS_ATTEMPTS 0 0 []
  else
    { result := FetchResult.err FetchErrorCode.FETCH_FAILED
        "Browserless not configured (BROWSERLESS_API_TOKEN missing)"
      contentCalls := 0, unblockCalls := 0, sleeps := [] }

/-- Projection: the `shouldRetry` flag of a Browserless call result. -/
def blShouldRetry : BLCallResult → Bool
  | BLCallResult.ok _ => false
  | BLCallResult.err _ _ r _ => r

/-- Projection: the `shouldTryUnblock` flag of a Browserless call result. -/
def blShouldUnblock : BLCallResult → Bool
  | BLCallResult.ok _ => false
  | BLCallResult.err _ _ _ u => u

/-- The claim's re-attempt condition on a `/content` transport outcome:
HTTP 429, an HTTP status of 500 or above (wrapper status or origin-site
header status), or a timeout. -/
def retryConditionClaim : ContentNetOutcome → Bool
  | ContentNetOutcome.threw m => jsIncludes m "timeout" || jsIncludes m "abort"
  | ContentNetOutcome.httpError s _ => decide (s = 429 ∨ 500 ≤ s)
  | ContentNetOutcome.okResp (some s) _ => decide (s = 429 ∨ 500 ≤ s)
  | ContentNetOutcome.okResp none _ => false

/-- The claim's escalation condition: a 403 origin-site status, read
from the dedicated response header or from the wrapper status. -/
def unblockConditionClaim : ContentNetOutcome → Bool
  | ContentNetOutcome.threw _ => false
  | ContentNetOutcome.httpError s _ => decide (s = 403)
  | ContentNetOutcome.okResp (some s) _ => decide (s = 403)
  | ContentNetOutcome.okResp none _ => false

/-- The claimed retry/backoff/escalation policy of `fetchBrowserless`,
stated over the model's observable outcome. -/
def BrowserlessPolicy (env : BrowserlessEnv) : Prop :=
  (fetchBrowserlessModel env).contentCalls ≤ MAX_BROWSERLESS_ATTEMPTS ∧
  1 ≤ (fetchBrowserlessModel env).contentCalls ∧
  (fetchBrowserlessModel env).unblockCalls ≤ 1 ∧
  (fetchBrowserlessModel env).sleeps =
    (List.range ((fetchBrowserlessModel env).contentCalls - 1)).map
      (fun i => RETRY_BASE_DELAY_MS * 2 ^ i) ∧
  ((fetchBrowserlessModel env).contentCalls = 2 →
    retryConditionClaim (env.contentNet 1) = true) ∧
  (unblockConditionClaim (env.contentNet 1) = true →
    (fetchBrowserlessModel env).unblockCalls = 1 ∧
    (fetchBrowserlessModel env).contentCalls = 1)

/-- Concrete Browserless environment: first `/content` attempt is
rate-limited (HTTP 429), the second succeeds. -/
def env9 : BrowserlessEnv :=
  { hasToken := true
    contentNet := fun attempt =>
      if attempt = 1 then ContentNetOutcome.httpError 429 "Too Many Requests"
      else ContentNetOutcome.okResp none "<html><body>hello</body></html>"
    unblockResult := BLCallResult.err FetchErrorCode.HTTP_SERVER_ERROR
      "Browserless /unblock error: HTTP 500 Internal Server Error" false false }

/-- Concrete Browserless environment: origin site returns 403 via the
`X-Response-Code` header, unblock succeeds. -/
def env9u : BrowserlessEnv :=
  { hasToken := true
    contentNet := fun _ =>
      ContentNetOutcome.okResp (some 403) "<html>blocked</html>"
    unblockResult := BLCallResult.ok "<html><body>unblocked</body></html>" }

/-! ## Discovery-order bookkeeping for candidate selection -/

/-- Index of the first occurrence of `u` in `us` (length of `us` when
absent; only applied to members). -/
def firstIdx : List String → String → Nat
  | [], _ => 0
  | v :: vs, u => if v = u then 0 else firstIdx vs u + 1

/-- First-occurrence key order of a list of URLs: the order in which a
JS `Map` built from them lists its keys. -/
def keyOrder : List String → List String
  | [] => []
  | u :: us => u :: keyOrder (us.filter (fun v => v ≠ u))
termination_by us => us.length
decreasing_by
  simp only [List.length_cons]
  exact Nat.lt_succ_of_le (List.length_filter_le _ _)

/-- Score-descending order with an arbitrary tiebreak rank `ordf`. -/
def scoreOrd (ordf : ScrapeCandidate → Nat) (a b : ScrapeCandidate) : Prop :=
  candScore b < candScore a ∨ (candScore b = candScore a ∧ ordf a < ordf b)

/-- Boolean membership in a URL list. -/
def memB (us : List String) (u : String) : Bool := us.any (fun v => v = u)

/-- The ordering `selectScrapeTargets` establishes: strictly greater
score first; on score ties, earlier first discovery (in the original
search-result list `l`) first. -/
def rankedBefore (l : List ScrapeCandidate) (a b : ScrapeCandidate) : Prop :=
  scoreOrd (fun c => firstIdx (l.map ScrapeCandidate.url) c.url) a b

/-! ## Concrete inputs for witnesses -/

/-- Concrete crawl environment: native fetch blocked with HTTP 403,
Browserless succeeds. -/
def envC1 : CrawlEnv :=
  { validate := fun u => Except.ok u
    fetchNative := fun _ => FetchResult.err FetchErrorCode.HTTP_CLIENT_ERROR "HTTP 403 Forbidden"
    fetchBrowserless := fun _ => FetchResult.ok "<html><body>ok</body></html>" "text/html"
    tryExtract := fun _ _ => Except.error "Content too short after cleaning (0 characters)"
    parseHostname := fun _ => some "example.com"
    successTtlMs := 3600000 }

/-- Concrete crawl environment: native fetch fails with `NOT_HTML`. -/
def envC1n : CrawlEnv :=
  { envC1 with
    fetchNative := fun _ => FetchResult.err FetchErrorCode.NOT_HTML
      "Not an HTML page. Content-Type: application/pdf" }

/-- Duplicate-URL candidates: first occurrence scores 5, last scores 1. -/
def cexDupA : ScrapeCandidate := { url := "http://a.com", relevanceScore := some 5 }

def cexDupB : ScrapeCandidate := { url := "http://a.com", relevanceScore := some 1 }

/-- A nonempty placeholder result used to populate concrete caches. -/
def resStub : ScrapeResult :=
  { title := "t", content := "c", summary := none, needsJsRendering := none,
    error := none, errorCode := none }

/-- A concrete cache already at capacity (100 distinct nonempty keys). -/
def cacheFull : Cache :=
  (List.range SCRAPE_CACHE_MAX_ENTRIES).map
    (fun i => ("u" ++ toString i, { exp := 1000000, val := resStub }))

/-! ## Well-formedness predicates for scrape results -/

/-- The failure-path invariant of `ScrapeResult`s: whenever `error` is
set, `errorCode` is set too, `content` is the synthesized
"Unable to fetch content from ..." placeholder, and a summary is
present. -/
def failureWellFormed (r : ScrapeResult) : Prop :=
  ∀ e, r.error = some e →
    r.errorCode.isSome = true ∧
    jsStartsWith r.content "Unable to fetch content from " = true ∧
    r.summary.isSome = true

/-- The full `ScrapeResult` invariant: failure results carry the
placeholder and both error fields; success results carry cleaned
extracted text between the minimum floor and the truncation maximum
plus the 3-character ellipsis, with the fixed-length summary prefix. -/
def resultWellFormed (r : ScrapeResult) : Prop :=
  (∀ e, r.error = some e →
    r.errorCode.isSome = true ∧
    jsStartsWith r.content "Unable to fetch content from " = true) ∧
  (r.error = none →
    MIN_CONTENT_LENGTH ≤ r.content.length ∧
    r.content.length ≤ MAX_CONTENT_LENGTH + 3 ∧
    r.summary = some (jsSubstring r.content (min SUMMARY_MAX_LENGTH r.content.length) ++
      (if min SUMMARY_MAX_LENGTH r.content.length < r.content.length then "..." else "")))

/-! ## Concrete extractor inputs -/

/-- Extractor outputs producing content that truncates to exactly
`MAX_CONTENT_LENGTH + 3` characters: the main content is 12,001 `z`s. -/
def cexParts : ExtractParts :=
  { meta := { title := "T", ogTitle := none, description := none }
    needsRender := false
    rsc := ""
    main := ⟨List.replicate 12001 'z'⟩ }

/-- Extractor outputs for a near-empty SPA shell (10 characters of
visible text). -/
def parts7 : ExtractParts :=
  { meta := { title := "T", ogTitle := none, description := none }
    needsRender := false
    rsc := ""
    main := ⟨List.replicate 10 'z'⟩ }

/-- Hostname-parse oracle used by concrete environments. -/
def hostSome : String → Option String := fun _ => some "example.com"

/-- A readable successful extraction result. -/
def okRes : ScrapeResult :=
  { title := "T", content := "some readable content for the caller",
    summary := some "some readable content for the caller",
    needsJsRendering := some false, error := none, errorCode := none }

/-- Environment for the extraction-retry scenario: native fetch returns
the shell `"NH"`, whose extraction fails the quality gate; Browserless
returns `"BH"`, which extracts fine. -/
def env2 : CrawlEnv :=
  { validate := fun u => Except.ok u
    fetchNative := fun _ => FetchResult.ok "NH" "text/html"
    fetchBrowserless := fun _ => FetchResult.ok "BH" "text/html"
    tryExtract := fun _ h =>
      if h = "BH" then Except.ok okRes
      else Except.error "Content too short after cleaning (10 characters)"
    parseHostname := hostSome
    successTtlMs := 3600000 }

/-- Environment where every path fails: native fetch times out and
Browserless fails too. -/
def env3 : CrawlEnv :=
  { validate := fun u => Except.ok u
    fetchNative := fun _ => FetchResult.err FetchErrorCode.TIMEOUT
      "The operation timed out"
    fetchBrowserless := fun _ => FetchResult.err FetchErrorCode.FETCH_FAILED
      "Browserless fetch failed after retries"
    tryExtract := fun _ _ => Except.error "never reached"
    parseHostname := hostSome
    successTtlMs := 3600000 }

/-- Environment for the idempotence scenario: both fetch and extraction
succeed, so the first scrape populates the cache. -/
def env4 : CrawlEnv :=
  { validate := fun u => Except.ok u
    fetchNative := fun _ => FetchResult.ok "H" "text/html"
    fetchBrowserless := fun _ => FetchResult.err FetchErrorCode.FETCH_FAILED "never"
    tryExtract := fun _ _ => Except.ok okRes
    parseHostname := hostSome
    successTtlMs := 1000 }

/-- Cheerio-parse oracle returning the oversized extraction. -/
def parse8 : String → ExtractParts := fun _ => cexParts

/-- Environment whose extractor is the concrete `extractAndClean`
composed with the parse oracle `parse8`. -/
def env8 : CrawlEnv :=
  { validate := fun u => Except.ok u
    fetchNative := fun _ => FetchResult.ok "H" "text/html"
    fetchBrowserless := fun _ => FetchResult.err FetchErrorCode.FETCH_FAILED "never"
    tryExtract := fun u h => extractAndClean hostSome u (parse8 h)
    parseHostname := hostSome
    successTtlMs := 3600000 }

/-- The claimed extraction-retry policy of the orchestrator, for a call
whose URL validates to `u` and misses the cache.  First conjunct: after
a successful Direct Fetch whose extraction fails, Browserless is
invoked exactly once iff the failure is content-too-short or
quality-check-failed, and the final result is the retry pipeline's
outcome (re-running extraction on the Browserless HTML).  Second
conjunct: when the HTML already came from Browserless, an extraction
failure triggers no further Browserless call. -/
def RetryPolicyProp (env : CrawlEnv) (cache : Cache) (now : Nat) (url u : String) : Prop :=
  (∀ html ct e, env.fetchNative u = FetchResult.ok html ct →
    env.tryExtract u html = Except.error e →
    ((scrapeModel env cache now url).browserlessCalls =
      (if shouldRetryBrowserlessAfterExtractionFailure e = true then 1 else 0)) ∧
    (shouldRetryBrowserlessAfterExtractionFailure e = true →
      (scrapeModel env cache now url).result =
        (match retryExtractionWithBrowserless env u e with
         | Except.ok r => r
         | Except.error m =>
           buildErrorResult env.parseHostname u m (classifyError m)))) ∧
  (∀ code msg html ct e, env.fetchNative u = FetchResult.err code msg →
    shouldAttemptBrowserless code = true →
    env.fetchBrowserless u = FetchResult.ok html ct →
    env.tryExtract u html = Except.error e →
    (scrapeModel env cache now url).browserlessCalls = 1)

/-! ## Helper lemmas -/

theorem listIsPrefixOf_append {α : Type} [BEq α] [LawfulBEq α] :
    ∀ (p q : List α), p.isPrefixOf (p ++ q) = true := by
  intro p q
  induction p with
  | nil => simp [List.isPrefixOf]
  | cons a as ih => simp [List.isPrefixOf, ih]

theorem jsStartsWith_append (p q : String) : jsStartsWith (p ++ q) p = true := by
  unfold jsStartsWith
  rw [String.data_append]
  exact listIsPrefixOf_append _ _

theorem removeAllCI_length_le (pat : List Char) :
    ∀ (l : List Char), (removeAllCI pat l).length ≤ l.length
  | [] => by rw [removeAllCI]
  | c :: rest => by
    rw [removeAllCI]
    by_cases h : 0 < pat.length ∧ isPrefixCI pat (c :: rest) = true
    · rw [if_pos h]
      have h1 := removeAllCI_length_le pat (rest.drop (pat.length - 1))
      have h2 : (rest.drop (pat.length - 1)).length ≤ rest.length :=
        by rw [List.length_drop]; omega
      simp only [List.length_cons]
      omega
    · rw [if_neg h]
      have h1 := removeAllCI_length_le pat rest
      simp only [List.length_cons]
      omega
termination_by l => l.length
decreasing_by
  · simp only [List.length_cons, List.length_drop]
    omega
  · simp only [List.length_cons]
    omega

theorem removeAllCI_id (c : Char) (cs : List Char) :
    ∀ (l : List Char), (∀ x ∈ l, ¬ x.toLower = c.toLower) →
      removeAllCI (c :: cs) l = l
  | [], _ => by rw [removeAllCI]
  | x :: rest, h => by
    rw [removeAllCI]
    have hpre : ¬ (0 < (c :: cs).length ∧ isPrefixCI (c :: cs) (x :: rest) = true) := by
      rintro ⟨-, hp⟩
      unfold isPrefixCI at hp
      rw [beq_iff_eq] at hp
      rw [List.length_cons, List.take_succ_cons, List.map_cons, List.map_cons] at hp
      have hx : x.toLower = c.toLower := by
        have := congrArg (fun l => l.head?) hp
        simpa using this
      exact h x (List.mem_cons_self _ _) hx
    rw [if_neg hpre]
    rw [removeAllCI_id c cs rest (fun y hy => h y (List.mem_cons_of_mem _ hy))]

theorem jsTrimList_length_le (l : List Char) : (jsTrimList l).length ≤ l.length := by
  unfold jsTrimList
  rw [List.length_reverse]
  have h1 : ((l.dropWhile jsWs).reverse.dropWhile jsWs).length ≤
      (l.dropWhile jsWs).reverse.length := (List.dropWhile_sublist _).length_le
  rw [List.length_reverse] at h1
  exact h1.trans (List.dropWhile_sublist _).length_le

theorem dropWhile_id_of_none (p : Char → Bool) (l : List Char)
    (h : ∀ x ∈ l, p x = false) : l.dropWhile p = l := by
  cases l with
  | nil => rfl
  | cons x rest =>
    rw [List.dropWhile_cons, h x (List.mem_cons_self _ _)]
    simp

theorem jsTrimList_id (l : List Char) (h : ∀ x ∈ l, jsWs x = false) :
    jsTrimList l = l := by
  unfold jsTrimList
  rw [dropWhile_id_of_none jsWs l h]
  rw [dropWhile_id_of_none jsWs l.reverse (fun x hx => h x (List.mem_reverse.mp hx))]
  exact List.reverse_reverse l

theorem removeJunkPatterns_length_le (s : String) :
    (removeJunkPatterns s).length ≤ s.length := by
  unfold removeJunkPatterns jsTrim
  show (jsTrimList _).length ≤ s.data.length
  refine (jsTrimList_length_le _).trans ?_
  have hfold : ∀ (pats : List (List Char)) (l : List Char),
      (pats.foldl (fun acc pat => removeAllCI pat acc) l).length ≤ l.length := by
    intro pats
    induction pats with
    | nil => intro l; exact le_refl _
    | cons p ps ih =>
      intro l
      exact (ih (removeAllCI p l)).trans (removeAllCI_length_le p l)
  exact hfold JUNK_PATTERNS s.data

theorem removeJunkPatterns_id (s : String)
    (hjunk : ∀ x ∈ s.data, ¬ x.toLower = 'c' ∧ ¬ x.toLower = 'a' ∧ ¬ x.toLower = 'p' ∧
      ¬ x.toLower = 't' ∧ ¬ x.toLower = 's' ∧ ¬ x.toLower = 'f')
    (hws : ∀ x ∈ s.data, jsWs x = false) :
    removeJunkPatterns s = s := by
  unfold removeJunkPatterns jsTrim
  have h1 : JUNK_PATTERNS.foldl (fun acc pat => removeAllCI pat acc) s.data = s.data := by
    unfold JUNK_PATTERNS
    simp only [List.foldl_cons, List.foldl_nil]
    rw [removeAllCI_id 'c' _ s.data (fun x hx => by
      have := (hjunk x hx).1
      simpa using this)]
    rw [removeAllCI_id 'a' _ s.data (fun x hx => by
      have := (hjunk x hx).2.1
      simpa using this)]
    rw [removeAllCI_id 'p' _ s.data (fun x hx => by
      have := (hjunk x hx).2.2.1
      simpa using this)]
    rw [removeAllCI_id 't' _ s.data (fun x hx => by
      have := (hjunk x hx).2.2.2.1
      simpa using this)]
    rw [removeAllCI_id 's' _ s.data (fun x hx => by
      have := (hjunk x hx).2.2.2.2.1
      simpa using this)]
    rw [removeAllCI_id 'f' _ s.data (fun x hx => by
      have := (hjunk x hx).2.2.2.2.2
      simpa using this)]
    rw [removeAllCI_id 's' _ s.data (fun x hx => by
      have := (hjunk x hx).2.2.2.2.1
      simpa using this)]
  rw [h1, jsTrimList_id s.data hws]

theorem transportScan_no_digit :
    ∀ (l : List Char), (∀ x ∈ l, x.isDigit = false) →
      ∀ (prev : Option Char), transportScan prev l = false := by
  intro l
  induction l with
  | nil => intro _ prev; rfl
  | cons c rest ih =>
    intro h prev
    rw [transportScan.eq_def]
    simp only [h c (List.mem_cons_self _ _), Bool.and_false, Bool.false_and,
      Bool.false_or]
    exact ih (fun x hx => h x (List.mem_cons_of_mem _ hx)) (some c)

theorem infixCheck_missing_head (c : Char) (cs : List Char) :
    ∀ (l : List Char), (∀ x ∈ l, ¬ x = c) →
      infixCheck (c :: cs) l = false := by
  intro l
  induction l with
  | nil => intro _; rfl
  | cons x rest ih =>
    intro h
    rw [infixCheck]
    have hne : (c == x) = false := by
      have := h x (List.mem_cons_self _ _)
      simp [BEq.beq]
      intro hc
      exact this hc.symm
    rw [show (c :: cs).isPrefixOf (x :: rest) = ((c == x) && cs.isPrefixOf rest)
      from rfl]
    rw [hne, ih (fun y hy => h y (List.mem_cons_of_mem _ hy))]
    simp

theorem wsRuns_zero :
    ∀ (l : List Char), (∀ x ∈ l, jsWs x = false) → ∀ b, wsRuns l b = 0 := by
  intro l
  induction l with
  | nil => intro _ b; rfl
  | cons c rest ih =>
    intro h b
    rw [wsRuns, h c (List.mem_cons_self _ _)]
    rw [if_neg (by simp)]
    exact ih (fun x hx => h x (List.mem_cons_of_mem _ hx)) false

/-- The eviction loop equals dropping the oldest entries down to the
capacity, provided no key is the (falsy) empty string. -/
theorem enforceCapacity_eq_drop :
    ∀ (c : Cache), (∀ kv ∈ c, kv.1 ≠ "") →
      enforceCapacity c = c.drop (c.length - SCRAPE_CACHE_MAX_ENTRIES)
  | [], _ => by
    rw [enforceCapacity]
    simp
  | (k, v) :: rest, h => by
    rw [enforceCapacity]
    by_cases hlen : SCRAPE_CACHE_MAX_ENTRIES < ((k, v) :: rest).length
    · have hk : k ≠ "" := h (k, v) (List.mem_cons_self _ _)
      simp only [if_pos hlen, if_neg hk]
      rw [enforceCapacity_eq_drop rest (fun kv hkv => h kv (List.mem_cons_of_mem _ hkv))]
      have hge : SCRAPE_CACHE_MAX_ENTRIES ≤ rest.length := by
        simp only [List.length_cons] at hlen
        omega
      have harith : ((k, v) :: rest).length - SCRAPE_CACHE_MAX_ENTRIES =
          (rest.length - SCRAPE_CACHE_MAX_ENTRIES) + 1 := by
        simp only [List.length_cons]
        omega
      rw [harith, List.drop_succ_cons]
    · simp only [if_neg hlen]
      have : ((k, v) :: rest).length - SCRAPE_CACHE_MAX_ENTRIES = 0 := by omega
      rw [this, List.drop_zero]

theorem insertByScoreDesc_perm (x : ScrapeCandidate) (l : List ScrapeCandidate) :
    List.Perm (insertByScoreDesc x l) (x :: l) := by
  induction l with
  | nil => exact List.Perm.refl _
  | cons y ys ih =>
    unfold insertByScoreDesc
    by_cases h : candScore x ≤ candScore y
    · simp only [if_pos h]
      exact (ih.cons y).trans (List.Perm.swap x y ys)
    · simp only [if_neg h]
      exact List.Perm.refl _

theorem sort_foldl_perm :
    ∀ (rest acc : List ScrapeCandidate),
      List.Perm (rest.foldl (fun acc x => insertByScoreDesc x acc) acc) (acc ++ rest) := by
  intro rest
  induction rest with
  | nil => intro acc; simp
  | cons x rest' ih =>
    intro acc
    have h1 := ih (insertByScoreDesc x acc)
    have h2 : List.Perm (insertByScoreDesc x acc ++ rest') ((x :: acc) ++ rest') :=
      (insertByScoreDesc_perm x acc).append_right rest'
    have h3 : List.Perm ((x :: acc) ++ rest') (acc ++ x :: rest') := List.perm_middle.symm
    exact (h1.trans h2).trans h3

theorem sortByScoreDesc_perm (l : List ScrapeCandidate) : List.Perm (sortByScoreDesc l) l := by
  have h := sort_foldl_perm l []
  simpa [sortByScoreDesc] using h

theorem pairwise_insertByScoreDesc (ordf : ScrapeCandidate → Nat) (x : ScrapeCandidate) :
    ∀ (acc : List ScrapeCandidate),
      acc.Pairwise (scoreOrd ordf) → (∀ y ∈ acc, ordf y < ordf x) →
      (insertByScoreDesc x acc).Pairwise (scoreOrd ordf) := by
  intro acc
  induction acc with
  | nil => intro _ _; simp [insertByScoreDesc]
  | cons y ys ih =>
    intro hp hlt
    rw [List.pairwise_cons] at hp
    obtain ⟨hy, hys⟩ := hp
    unfold insertByScoreDesc
    by_cases h : candScore x ≤ candScore y
    · simp only [if_pos h]
      rw [List.pairwise_cons]
      constructor
      · intro z hz
        have hz' : z = x ∨ z ∈ ys := by
          have hmem := (List.Perm.mem_iff (insertByScoreDesc_perm x ys)).mp hz
          simpa using hmem
        rcases hz' with rfl | hz'
        · rcases lt_or_eq_of_le h with hlt' | heq
          · exact Or.inl hlt'
          · exact Or.inr ⟨heq, hlt y (List.mem_cons_self _ _)⟩
        · exact hy z hz'
      · exact ih hys (fun z hz => hlt z (List.mem_cons_of_mem _ hz))
    · simp only [if_neg h]
      push_neg at h
      rw [List.pairwise_cons]
      constructor
      · intro z hz
        rcases List.mem_cons.mp hz with rfl | hz'
        · exact Or.inl h
        · rcases hy z hz' with hlt' | ⟨heq, _⟩
          · exact Or.inl (hlt'.trans h)
          · exact Or.inl (heq ▸ h)
      · exact List.pairwise_cons.mpr ⟨hy, hys⟩

theorem pairwise_sort_aux (ordf : ScrapeCandidate → Nat) :
    ∀ (rest acc : List ScrapeCandidate),
      acc.Pairwise (scoreOrd ordf) →
      (∀ y ∈ acc, ∀ x ∈ rest, ordf y < ordf x) →
      rest.Pairwise (fun a b => ordf a < ordf b) →
      (rest.foldl (fun acc x => insertByScoreDesc x acc) acc).Pairwise (scoreOrd ordf) := by
  intro rest
  induction rest with
  | nil => intro acc hacc _ _; exact hacc
  | cons x rest' ih =>
    intro acc hacc hcross hrest
    rw [List.pairwise_cons] at hrest
    obtain ⟨hx, hrest'⟩ := hrest
    refine ih (insertByScoreDesc x acc) ?_ ?_ hrest'
    · exact pairwise_insertByScoreDesc ordf x acc hacc
        (fun y hy => hcross y hy x (List.mem_cons_self _ _))
    · intro y hy z hz
      have hy' : y = x ∨ y ∈ acc := by
        have := (List.Perm.mem_iff (insertByScoreDesc_perm x acc)).mp hy
        simpa using this
      rcases hy' with rfl | hy'
      · exact hx z hz
      · exact hcross y hy' z (List.mem_cons_of_mem _ hz)

theorem memB_map_url (acc : List ScrapeCandidate) (u : String) :
    memB (acc.map ScrapeCandidate.url) u = acc.any (fun x => x.url = u) := by
  induction acc with
  | nil => rfl
  | cons x xs ih =>
    simp only [memB, List.map_cons, List.any_cons] at ih ⊢
    rw [ih]

theorem dedupStep_map_url_mem (acc : List ScrapeCandidate) (r : ScrapeCandidate)
    (hA : acc.any (fun x => x.url = r.url) = true) :
    (dedupStep acc r).map ScrapeCandidate.url = acc.map ScrapeCandidate.url := by
  simp only [dedupStep, hA, if_true, List.map_map]
  refine List.map_congr_left ?_
  intro x _
  by_cases hx : x.url = r.url
  · simp [Function.comp, hx]
  · simp [Function.comp, hx]

theorem dedupStep_map_url_new (acc : List ScrapeCandidate) (r : ScrapeCandidate)
    (hA : ¬ acc.any (fun x => x.url = r.url) = true) :
    (dedupStep acc r).map ScrapeCandidate.url =
      acc.map ScrapeCandidate.url ++ [r.url] := by
  simp [dedupStep, hA]

theorem dedup_keys :
    ∀ (rest acc : List ScrapeCandidate),
      (rest.foldl dedupStep acc).map ScrapeCandidate.url =
        acc.map ScrapeCandidate.url ++
          keyOrder ((rest.map ScrapeCandidate.url).filter
            (fun v => !memB (acc.map ScrapeCandidate.url) v)) := by
  intro rest
  induction rest with
  | nil =>
    intro acc
    simp [keyOrder]
  | cons r rest' ih =>
    intro acc
    rw [List.foldl_cons, ih (dedupStep acc r), List.map_cons]
    by_cases hA : acc.any (fun x => x.url = r.url) = true
    · have hmemB : memB (acc.map ScrapeCandidate.url) r.url = true := by
        rw [memB_map_url]; exact hA
      rw [dedupStep_map_url_mem acc r hA]
      have hfil : (r.url :: rest'.map ScrapeCandidate.url).filter
            (fun v => !memB (acc.map ScrapeCandidate.url) v) =
          (rest'.map ScrapeCandidate.url).filter
            (fun v => !memB (acc.map ScrapeCandidate.url) v) := by
        rw [List.filter_cons_of_neg]
        simp [hmemB]
      rw [hfil]
    · have hmemB : memB (acc.map ScrapeCandidate.url) r.url = false := by
        rw [memB_map_url]
        exact Bool.not_eq_true _ ▸ (Bool.eq_false_iff.mpr (fun hc => hA hc))
      rw [dedupStep_map_url_new acc r hA]
      have hfil : (r.url :: rest'.map ScrapeCandidate.url).filter
            (fun v => !memB (acc.map ScrapeCandidate.url) v) =
          r.url :: (rest'.map ScrapeCandidate.url).filter
            (fun v => !memB (acc.map ScrapeCandidate.url) v) := by
        rw [List.filter_cons_of_pos]
        simp [hmemB]
      rw [hfil, keyOrder]
      have hff : ((rest'.map ScrapeCandidate.url).filter
              (fun v => !memB (acc.map ScrapeCandidate.url) v)).filter
            (fun v => v ≠ r.url) =
          (rest'.map ScrapeCandidate.url).filter
            (fun v => !memB (acc.map ScrapeCandidate.url ++ [r.url]) v) := by
        rw [List.filter_filter]
        refine List.filter_congr ?_
        intro v _
        simp only [memB, List.any_append, Bool.not_or, List.any_cons, List.any_nil,
          Bool.or_false]
        by_cases hv : v = r.url
        · subst hv
          simp
        · have hv' : ¬ r.url = v := fun hc => hv hc.symm
          simp [hv, hv']
      rw [hff, List.append_assoc, List.singleton_append]

theorem keyOrder_subset :
    ∀ (us : List String) (v : String), v ∈ keyOrder us → v ∈ us
  | [], v, h => by simp [keyOrder] at h
  | u :: us, v, h => by
    rw [keyOrder] at h
    rcases List.mem_cons.mp h with rfl | h'
    · exact List.mem_cons_self _ _
    · have hv := keyOrder_subset (us.filter (fun w => w ≠ u)) v h'
      exact List.mem_cons_of_mem _ (List.mem_of_mem_filter hv)
termination_by us => us.length
decreasing_by
  simp only [List.length_cons]
  exact Nat.lt_succ_of_le (List.length_filter_le _ _)

theorem firstIdx_cons_self (us : List String) (u : String) :
    firstIdx (u :: us) u = 0 := by
  simp [firstIdx]

theorem firstIdx_cons_ne (us : List String) (w u : String) (h : w ≠ u) :
    firstIdx (w :: us) u = firstIdx us u + 1 := by
  simp [firstIdx, h]

theorem firstIdx_filter_lt :
    ∀ (us : List String) (p : String → Bool) (a b : String),
      a ∈ us.filter p → b ∈ us.filter p →
      firstIdx (us.filter p) a < firstIdx (us.filter p) b →
      firstIdx us a < firstIdx us b := by
  intro us
  induction us with
  | nil => intro p a b ha _ _; simp at ha
  | cons w ws ih =>
    intro p a b ha hb hlt
    by_cases hp : p w = true
    · rw [List.filter_cons_of_pos hp] at ha hb hlt
      by_cases haw : w = a
      · subst haw
        rw [firstIdx_cons_self] at hlt ⊢
        have hbw : w ≠ b := by
          intro hc
          subst hc
          rw [firstIdx_cons_self] at hlt
          omega
        rw [firstIdx_cons_ne _ _ _ hbw]
        omega
      · by_cases hbw : w = b
        · subst hbw
          rw [firstIdx_cons_self, firstIdx_cons_ne _ _ _ haw] at hlt
          omega
        · rw [firstIdx_cons_ne _ _ _ haw, firstIdx_cons_ne _ _ _ hbw] at hlt ⊢
          have ha' : a ∈ ws.filter p := by
            rcases List.mem_cons.mp ha with rfl | h'
            · exact absurd rfl haw
            · exact h'
          have hb' : b ∈ ws.filter p := by
            rcases List.mem_cons.mp hb with rfl | h'
            · exact absurd rfl hbw
            · exact h'
          have := ih p a b ha' hb' (by omega)
          omega
    · rw [List.filter_cons_of_neg (by simpa using hp)] at ha hb hlt
      have hpa : p a = true := (List.mem_filter.mp ha).2
      have hpb : p b = true := (List.mem_filter.mp hb).2
      have haw : w ≠ a := fun hc => hp (hc ▸ hpa)
      have hbw : w ≠ b := fun hc => hp (hc ▸ hpb)
      rw [firstIdx_cons_ne _ _ _ haw, firstIdx_cons_ne _ _ _ hbw]
      have := ih p a b ha hb hlt
      omega

theorem keyOrder_pairwise :
    ∀ (us : List String),
      (keyOrder us).Pairwise (fun u v => firstIdx us u < firstIdx us v)
  | [] => by simp [keyOrder]
  | u :: us => by
    rw [keyOrder, List.pairwise_cons]
    constructor
    · intro v hv
      have hvf := keyOrder_subset _ v hv
      have hvne : v ≠ u := by
        have := (List.mem_filter.mp hvf).2
        simpa using this
      rw [firstIdx_cons_self, firstIdx_cons_ne _ _ _ (fun hc => hvne hc.symm)]
      omega
    · have ih := keyOrder_pairwise (us.filter (fun v => v ≠ u))
      refine ih.imp_of_mem ?_
      intro a b ha hb hlt
      have haf := keyOrder_subset _ a ha
      have hbf := keyOrder_subset _ b hb
      have hane : a ≠ u := by
        have := (List.mem_filter.mp haf).2
        simpa using this
      have hbne : b ≠ u := by
        have := (List.mem_filter.mp hbf).2
        simpa using this
      have hmono := firstIdx_filter_lt us (fun v => decide (v ≠ u)) a b haf hbf hlt
      rw [firstIdx_cons_ne _ _ _ (fun hc => hane hc.symm),
        firstIdx_cons_ne _ _ _ (fun hc => hbne hc.symm)]
      omega
termination_by us => us.length
decreasing_by
  simp only [List.length_cons]
  exact Nat.lt_succ_of_le (List.length_filter_le _ _)

theorem dedupByUrl_keys (l : List ScrapeCandidate) :
    (dedupByUrl l).map ScrapeCandidate.url = keyOrder (l.map ScrapeCandidate.url) := by
  have h := dedup_keys l []
  simpa [dedupByUrl, memB] using h

theorem dedupByUrl_pairwise_firstIdx (l : List ScrapeCandidate) :
    (dedupByUrl l).Pairwise (fun a b =>
      firstIdx (l.map ScrapeCandidate.url) a.url <
        firstIdx (l.map ScrapeCandidate.url) b.url) := by
  have h := keyOrder_pairwise (l.map ScrapeCandidate.url)
  rw [← dedupByUrl_keys] at h
  exact List.Pairwise.of_map ScrapeCandidate.url (fun a b hab => hab) h

theorem findq_append {α : Type} (p : α → Bool) :
    ∀ (xs ys : List α),
      (xs ++ ys).find? p =
        (match xs.find? p with
         | some v => some v
         | none => ys.find? p) := by
  intro xs ys
  induction xs with
  | nil => simp
  | cons x xs ih =>
    cases hp : p x with
    | true => simp [List.find?, hp]
    | false => simp [List.find?, hp, ih]

theorem dedup_foldl_mem_last :
    ∀ (rest acc : List ScrapeCandidate) (a : ScrapeCandidate),
      a ∈ rest.foldl dedupStep acc →
      (if a.url ∈ rest.map ScrapeCandidate.url
       then rest.reverse.find? (fun c => c.url = a.url) = some a
       else a ∈ acc) := by
  intro rest
  induction rest with
  | nil =>
    intro acc a ha
    simpa using ha
  | cons r rest' ih =>
    intro acc a ha
    rw [List.foldl_cons] at ha
    have h' := ih (dedupStep acc r) a ha
    by_cases hmem : a.url ∈ rest'.map ScrapeCandidate.url
    · rw [if_pos hmem] at h'
      have hcond : a.url ∈ (r :: rest').map ScrapeCandidate.url := by
        simp only [List.map_cons, List.mem_cons]
        exact Or.inr hmem
      rw [if_pos hcond, List.reverse_cons, findq_append, h']
    · rw [if_neg hmem] at h'
      have hlastself : a.url = r.url →
          (r :: rest').reverse.find? (fun c => c.url = a.url) = some r := by
        intro haurl
        rw [List.reverse_cons, findq_append]
        have hnone : rest'.reverse.find? (fun c => c.url = a.url) = none := by
          rw [List.find?_eq_none]
          intro c hc
          simp only [decide_eq_true_eq]
          intro hcu
          exact hmem (hcu ▸ List.mem_map_of_mem ScrapeCandidate.url
            (List.mem_reverse.mp hc))
        rw [hnone]
        simp [List.find?, haurl.symm]
      unfold dedupStep at h'
      by_cases hA : acc.any (fun x => x.url = r.url) = true
      · rw [if_pos hA] at h'
        obtain ⟨x, hx, hfx⟩ := List.mem_map.mp h'
        by_cases hxu : x.url = r.url
        · rw [if_pos hxu] at hfx
          have haurl : a.url = r.url := by rw [← hfx]
          have hcond : a.url ∈ (r :: rest').map ScrapeCandidate.url := by
            simp only [List.map_cons, List.mem_cons]
            exact Or.inl haurl
          rw [if_pos hcond, hlastself haurl]
          exact congrArg some hfx
        · rw [if_neg hxu] at hfx
          have hcond : ¬ a.url ∈ (r :: rest').map ScrapeCandidate.url := by
            simp only [List.map_cons, List.mem_cons]
            push_neg
            exact ⟨fun hc => hxu (hfx ▸ hc), hmem⟩
          rw [if_neg hcond]
          exact hfx ▸ hx
      · rw [if_neg hA] at h'
        rcases List.mem_append.mp h' with hacc | hr
        · have haurl : ¬ a.url = r.url := by
            intro hc
            exact hA (List.any_eq_true.mpr ⟨a, hacc, by simp [hc]⟩)
          have hcond : ¬ a.url ∈ (r :: rest').map ScrapeCandidate.url := by
            simp only [List.map_cons, List.mem_cons]
            push_neg
            exact ⟨haurl, hmem⟩
          rw [if_neg hcond]
          exact hacc
        · have hra : a = r := by simpa using hr
          have haurl : a.url = r.url := by rw [hra]
          have hcond : a.url ∈ (r :: rest').map ScrapeCandidate.url := by
            simp only [List.map_cons, List.mem_cons]
            exact Or.inl haurl
          rw [if_pos hcond, hlastself haurl]
          exact congrArg some hra.symm

/-! ## Claim theorems -/

/-- C1: when the Direct Fetch strategy fails, the orchestrator's
`fetchWithFallback` invokes the Headless Render strategy exactly once if
the failure code is `HTTP_CLIENT_ERROR`, `TIMEOUT` or `FETCH_FAILED`,
and not at all otherwise (in particular not on `NOT_HTML`). -/
theorem fallback_invokes_browserless_iff_retryable_code
    (env : CrawlEnv) (url : String) (code : FetchErrorCode) (msg : String)
    (h : env.fetchNative url = FetchResult.err code msg) :
    (fetchWithFallback env url).browserlessCalls =
      (if code = FetchErrorCode.HTTP_CLIENT_ERROR ∨ code = FetchErrorCode.TIMEOUT ∨
          code = FetchErrorCode.FETCH_FAILED then 1 else 0) := by
  unfold fetchWithFallback
  rw [h]
  cases code <;>
    simp only [shouldAttemptBrowserless, beq_iff_eq, reduceCtorEq] <;>
    cases env.fetchBrowserless url <;> simp

theorem fallback_invokes_browserless_iff_retryable_code_witness :
    (fetchWithFallback envC1 "https://example.com/a").browserlessCalls = 1 ∧
    (fetchWithFallback envC1n "https://example.com/a").browserlessCalls = 0 := by
  constructor
  · have h := fallback_invokes_browserless_iff_retryable_code envC1
      "https://example.com/a" FetchErrorCode.HTTP_CLIENT_ERROR "HTTP 403 Forbidden" rfl
    simpa using h
  · have h := fallback_invokes_browserless_iff_retryable_code envC1n
      "https://example.com/a" FetchErrorCode.NOT_HTML
      "Not an HTML page. Content-Type: application/pdf" rfl
    simpa using h

/-- C5: a completed `cacheScrapeResult` call leaves the cache within the
configured capacity of 100 entries (for any prior cache state, hence
after any sequence of insertions), and over-capacity eviction removes
the oldest-inserted entries first: the final cache is exactly the
inserted state with its oldest entries dropped down to capacity. -/
theorem cache_capacity_after_insert
    (c : Cache) (url : String) (val : ScrapeResult) (ttlMs now : Nat)
    (hc : ∀ kv ∈ c, kv.1 ≠ "") (hu : url ≠ "") :
    cacheScrapeResult c url val ttlMs now =
      (mapSet c url { exp := now + ttlMs, val := val }).drop
        ((mapSet c url { exp := now + ttlMs, val := val }).length - SCRAPE_CACHE_MAX_ENTRIES) ∧
    (cacheScrapeResult c url val ttlMs now).length ≤ SCRAPE_CACHE_MAX_ENTRIES := by
  have hkeys : ∀ kv ∈ mapSet c url { exp := now + ttlMs, val := val }, kv.1 ≠ "" := by
    intro kv hkv
    unfold mapSet at hkv
    by_cases hmem : c.any (fun kv => kv.1 = url)
    · simp only [if_pos hmem, List.mem_map] at hkv
      obtain ⟨x, hx, hxe⟩ := hkv
      by_cases hxu : x.1 = url
      · simp only [hxu, if_pos rfl] at hxe
        rw [← hxe]
        exact hu
      · simp only [if_neg hxu] at hxe
        rw [← hxe]
        exact hc x hx
    · simp only [if_neg hmem, List.mem_append, List.mem_singleton] at hkv
      rcases hkv with hkv | hkv
      · exact hc kv hkv
      · rw [hkv]
        exact hu
  have heq : cacheScrapeResult c url val ttlMs now =
      (mapSet c url { exp := now + ttlMs, val := val }).drop
        ((mapSet c url { exp := now + ttlMs, val := val }).length - SCRAPE_CACHE_MAX_ENTRIES) := by
    unfold cacheScrapeResult
    exact enforceCapacity_eq_drop _ hkeys
  refine ⟨heq, ?_⟩
  rw [heq, List.length_drop]
  omega

theorem cache_capacity_after_insert_witness :
    cacheScrapeResult cacheFull "unew" resStub 5000 0 =
      (mapSet cacheFull "unew" { exp := 5000, val := resStub }).drop
        ((mapSet cacheFull "unew" { exp := 5000, val := resStub }).length - SCRAPE_CACHE_MAX_ENTRIES) ∧
    (cacheScrapeResult cacheFull "unew" resStub 5000 0).length ≤ SCRAPE_CACHE_MAX_ENTRIES := by
  have h := cache_capacity_after_insert cacheFull "unew" resStub 5000 0
    (by decide) (by decide)
  simpa using h

/-- C6: `selectScrapeTargets` returns each URL at most once, keeps only
URLs starting with "http", orders results by relevance score descending
with ties resolved by original discovery order (missing scores count as
0), and returns at most `maxUrls` entries.  (Determinism holds because
the embedding is a pure function of its two arguments.) -/
theorem selectScrapeTargets_spec (l : List ScrapeCandidate) (maxUrls : Nat) :
    ((selectScrapeTargets l maxUrls).map ScrapeCandidate.url).Nodup ∧
    (∀ r ∈ selectScrapeTargets l maxUrls, jsStartsWith r.url "http" = true) ∧
    (selectScrapeTargets l maxUrls).Pairwise (fun a b => candScore b ≤ candScore a) ∧
    (selectScrapeTargets l maxUrls).Pairwise (rankedBefore l) ∧
    (selectScrapeTargets l maxUrls).length ≤ maxUrls := by
  have hperm : List.Perm
      (sortByScoreDesc ((dedupByUrl l).filter (fun r => jsStartsWith r.url "http")))
      ((dedupByUrl l).filter (fun r => jsStartsWith r.url "http")) :=
    sortByScoreDesc_perm _
  have hsub : List.Sublist (selectScrapeTargets l maxUrls)
      (sortByScoreDesc ((dedupByUrl l).filter (fun r => jsStartsWith r.url "http"))) := by
    rw [selectScrapeTargets]
    exact List.take_sublist _ _
  have hdp : ((dedupByUrl l).filter (fun r => jsStartsWith r.url "http")).Pairwise
      (fun a b => firstIdx (l.map ScrapeCandidate.url) a.url <
        firstIdx (l.map ScrapeCandidate.url) b.url) :=
    (dedupByUrl_pairwise_firstIdx l).sublist (List.filter_sublist _)
  have hranked : (selectScrapeTargets l maxUrls).Pairwise (rankedBefore l) := by
    have hs := pairwise_sort_aux (fun c => firstIdx (l.map ScrapeCandidate.url) c.url)
      ((dedupByUrl l).filter (fun r => jsStartsWith r.url "http")) []
      List.Pairwise.nil (fun y hy => absurd hy (List.not_mem_nil y)) hdp
    rw [show (((dedupByUrl l).filter (fun r => jsStartsWith r.url "http")).foldl
        (fun acc x => insertByScoreDesc x acc) []) =
        sortByScoreDesc ((dedupByUrl l).filter (fun r => jsStartsWith r.url "http"))
      from rfl] at hs
    exact hs.sublist hsub
  refine ⟨?_, ?_, ?_, hranked, ?_⟩
  · have hnd : ((dedupByUrl l).map ScrapeCandidate.url).Nodup := by
      rw [dedupByUrl_keys]
      exact (keyOrder_pairwise _).imp
        (fun {u v} h hc => absurd (hc ▸ h) (lt_irrefl _))
    have hndf : (((dedupByUrl l).filter
        (fun r => jsStartsWith r.url "http")).map ScrapeCandidate.url).Nodup :=
      hnd.sublist ((List.filter_sublist _).map ScrapeCandidate.url)
    have hnds : ((sortByScoreDesc ((dedupByUrl l).filter
        (fun r => jsStartsWith r.url "http"))).map ScrapeCandidate.url).Nodup :=
      ((hperm.map ScrapeCandidate.url).nodup_iff).mpr hndf
    exact hnds.sublist (hsub.map ScrapeCandidate.url)
  · intro r hr
    have h1 : r ∈ sortByScoreDesc ((dedupByUrl l).filter
        (fun r => jsStartsWith r.url "http")) := hsub.subset hr
    have h2 : r ∈ (dedupByUrl l).filter (fun r => jsStartsWith r.url "http") :=
      hperm.mem_iff.mp h1
    exact (List.mem_filter.mp h2).2
  · exact hranked.imp (fun {a b} h => by
      rcases h with hlt | ⟨heq, _⟩
      · exact le_of_lt hlt
      · exact le_of_eq heq)
  · rw [selectScrapeTargets, List.length_take]
    exact min_le_left _ _

/-- C10: the candidate retained for a duplicated URL is the last
occurrence of that URL in the input (the JS `Map` constructor overwrites
the value on key collision), so that occurrence's relevance score is the
one used for ranking — not the first occurrence's and not the highest. -/
theorem selectScrapeTargets_retains_last_occurrence
    (l : List ScrapeCandidate) (maxUrls : Nat) (r : ScrapeCandidate)
    (hr : r ∈ selectScrapeTargets l maxUrls) :
    l.reverse.find? (fun c => c.url = r.url) = some r := by
  have h1 : r ∈ sortByScoreDesc ((dedupByUrl l).filter
      (fun x => jsStartsWith x.url "http")) := by
    rw [selectScrapeTargets] at hr
    exact (List.take_sublist _ _).subset hr
  have h2 : r ∈ dedupByUrl l :=
    List.mem_of_mem_filter ((sortByScoreDesc_perm _).mem_iff.mp h1)
  have h := dedup_foldl_mem_last l [] r (by simpa [dedupByUrl] using h2)
  by_cases hmem : r.url ∈ l.map ScrapeCandidate.url
  · rw [if_pos hmem] at h
    exact h
  · rw [if_neg hmem] at h
    simp at h

theorem selectScrapeTargets_retains_last_occurrence_witness :
    cexDupB ∈ selectScrapeTargets [cexDupA, cexDupB] 5 ∧
    [cexDupA, cexDupB].reverse.find? (fun c => c.url = cexDupB.url) = some cexDupB := by
  constructor
  · decide
  · exact selectScrapeTargets_retains_last_occurrence [cexDupA, cexDupB] 5 cexDupB
      (by decide)


theorem blShouldRetry_callContentApi (o : ContentNetOutcome) :
    blShouldRetry (callContentApi o) = retryConditionClaim o := by
  cases o with
  | threw m =>
    simp only [callContentApi, retryConditionClaim]
    cases h : jsIncludes m "timeout" || jsIncludes m "abort" <;>
      simp [blShouldRetry, h]
  | httpError s t =>
    simp [callContentApi, classifyHttpStatus, blShouldRetry, retryConditionClaim,
      RATE_LIMIT_HTTP_STATUS]
  | okResp st body =>
    cases st with
    | none =>
      simp only [callContentApi, retryConditionClaim]
      by_cases h : (jsTrim body).length = 0 <;> simp [blShouldRetry, h]
    | some s =>
      simp only [callContentApi, retryConditionClaim]
      by_cases h4 : 400 ≤ s
      · simp [h4, classifyHttpStatus, blShouldRetry, RATE_LIMIT_HTTP_STATUS]
      · have hno : ¬ (s = 429 ∨ 500 ≤ s) := by omega
        by_cases h : (jsTrim body).length = 0 <;>
          simp [h4, h, blShouldRetry, hno]

theorem blShouldUnblock_callContentApi (o : ContentNetOutcome) :
    blShouldUnblock (callContentApi o) = unblockConditionClaim o := by
  cases o with
  | threw m =>
    simp only [callContentApi, unblockConditionClaim]
    cases h : jsIncludes m "timeout" || jsIncludes m "abort" <;>
      simp [blShouldUnblock, h]
  | httpError s t =>
    simp [callContentApi, classifyHttpStatus, blShouldUnblock, unblockConditionClaim]
  | okResp st body =>
    cases st with
    | none =>
      simp only [callContentApi, unblockConditionClaim]
      by_cases h : (jsTrim body).length = 0 <;> simp [blShouldUnblock, h]
    | some s =>
      simp only [callContentApi, unblockConditionClaim]
      by_cases h4 : 400 ≤ s
      · simp [h4, classifyHttpStatus, blShouldUnblock]
      · have hno : ¬ s = 403 := by omega
        by_cases h : (jsTrim body).length = 0 <;>
          simp [h4, h, blShouldUnblock, hno]

/-- C9: `fetchBrowserless` makes at most 2 `/content` attempts,
re-attempts only on 429 / 5xx / timeout, sleeps the exponential backoff
(base 250 ms, doubling) between tries, and a 403 origin-site status on
the first attempt triggers exactly one `/unblock` escalation with no
further `/content` attempts; `/unblock` is never called more than once. -/
theorem fetchBrowserless_attempts_backoff_unblock (env : BrowserlessEnv)
    (h : env.hasToken = true) : BrowserlessPolicy env := by
  have hr1 := blShouldRetry_callContentApi (env.contentNet 1)
  have hu1 := blShouldUnblock_callContentApi (env.contentNet 1)
  unfold BrowserlessPolicy fetchBrowserlessModel
  rw [if_pos h]
  rcases hc1 : callContentApi (env.contentNet 1) with html | ⟨c1, m1, sr1, su1⟩
  · rw [hc1] at hu1
    have hrec : fetchBrowserlessLoop env 1 MAX_BROWSERLESS_ATTEMPTS 0 0 [] =
        { result := FetchResult.ok html "text/html", contentCalls := 1,
          unblockCalls := 0, sleeps := [] } := by
      simp [fetchBrowserlessLoop, MAX_BROWSERLESS_ATTEMPTS, hc1]
    rw [hrec]
    refine ⟨by norm_num [MAX_BROWSERLESS_ATTEMPTS], by norm_num, by norm_num,
      by simp, by norm_num, ?_⟩
    intro hcond
    rw [← hu1] at hcond
    simp [blShouldUnblock] at hcond
  · rw [hc1] at hr1 hu1
    cases su1 with
    | true =>
      have hrec : fetchBrowserlessLoop env 1 MAX_BROWSERLESS_ATTEMPTS 0 0 [] =
          { result := (match env.unblockResult with
              | BLCallResult.ok uhtml => FetchResult.ok uhtml "text/html"
              | BLCallResult.err uc _ _ _ => FetchResult.err uc
                  (m1 ++ "; " ++ fetchBrowserlessLoop.unblockMessage env.unblockResult)),
            contentCalls := 1, unblockCalls := 1, sleeps := [] } := by
        rcases hub : env.unblockResult with uhtml | ⟨uc, um, ur, uu⟩ <;>
          simp [fetchBrowserlessLoop, MAX_BROWSERLESS_ATTEMPTS, hc1, hub]
      rw [hrec]
      exact ⟨by norm_num [MAX_BROWSERLESS_ATTEMPTS], by norm_num, by norm_num,
        by simp, by norm_num, fun _ => ⟨rfl, rfl⟩⟩
    | false =>
      cases sr1 with
      | false =>
        have hrec : fetchBrowserlessLoop env 1 MAX_BROWSERLESS_ATTEMPTS 0 0 [] =
            { result := FetchResult.err c1 m1, contentCalls := 1,
              unblockCalls := 0, sleeps := [] } := by
          simp [fetchBrowserlessLoop, MAX_BROWSERLESS_ATTEMPTS, hc1]
        rw [hrec]
        refine ⟨by norm_num [MAX_BROWSERLESS_ATTEMPTS], by norm_num, by norm_num,
          by simp, by norm_num, ?_⟩
        intro hcond
        rw [← hu1] at hcond
        simp [blShouldUnblock] at hcond
      | true =>
        have hretry : retryConditionClaim (env.contentNet 1) = true := by
          rw [← hr1]
          simp [blShouldRetry]
        have hnoub : ¬ unblockConditionClaim (env.contentNet 1) = true := by
          rw [← hu1]
          simp [blShouldUnblock]
        rcases hc2 : callContentApi (env.contentNet 2) with html2 | ⟨c2, m2, sr2, su2⟩
        · have hrec : fetchBrowserlessLoop env 1 MAX_BROWSERLESS_ATTEMPTS 0 0 [] =
              { result := FetchResult.ok html2 "text/html", contentCalls := 2,
                unblockCalls := 0, sleeps := [RETRY_BASE_DELAY_MS] } := by
            simp [fetchBrowserlessLoop, MAX_BROWSERLESS_ATTEMPTS, hc1, hc2]
          rw [hrec]
          refine ⟨by norm_num [MAX_BROWSERLESS_ATTEMPTS], by norm_num, by norm_num,
            by rfl, fun _ => hretry, fun hc => absurd hc hnoub⟩
        · cases su2 with
          | true =>
            have hrec : fetchBrowserlessLoop env 1 MAX_BROWSERLESS_ATTEMPTS 0 0 [] =
                { result := (match env.unblockResult with
                    | BLCallResult.ok uhtml => FetchResult.ok uhtml "text/html"
                    | BLCallResult.err uc _ _ _ => FetchResult.err uc
                        (m2 ++ "; " ++ fetchBrowserlessLoop.unblockMessage env.unblockResult)),
                  contentCalls := 2, unblockCalls := 1,
                  sleeps := [RETRY_BASE_DELAY_MS] } := by
              rcases hub : env.unblockResult with uhtml | ⟨uc, um, ur, uu⟩ <;>
                simp [fetchBrowserlessLoop, MAX_BROWSERLESS_ATTEMPTS, hc1, hc2, hub]
            rw [hrec]
            refine ⟨by norm_num [MAX_BROWSERLESS_ATTEMPTS], by norm_num, by norm_num,
              by rfl, fun _ => hretry, fun hc => absurd hc hnoub⟩
          | false =>
            have hrec : fetchBrowserlessLoop env 1 MAX_BROWSERLESS_ATTEMPTS 0 0 [] =
                { result := FetchResult.err c2 m2, contentCalls := 2,
                  unblockCalls := 0, sleeps := [RETRY_BASE_DELAY_MS] } := by
              simp [fetchBrowserlessLoop, MAX_BROWSERLESS_ATTEMPTS, hc1, hc2]
            rw [hrec]
            refine ⟨by norm_num [MAX_BROWSERLESS_ATTEMPTS], by norm_num, by norm_num,
              by rfl, fun _ => hretry, fun hc => absurd hc hnoub⟩

theorem fetchBrowserless_attempts_backoff_unblock_witness :
    (env9.hasToken = true ∧ BrowserlessPolicy env9) ∧
    (env9u.hasToken = true ∧ BrowserlessPolicy env9u) :=
  ⟨⟨rfl, fetchBrowserless_attempts_backoff_unblock env9 rfl⟩,
   ⟨rfl, fetchBrowserless_attempts_backoff_unblock env9u rfl⟩⟩


theorem replicate_string_junkfree (n : Nat) :
    removeJunkPatterns ⟨List.replicate n 'z'⟩ = ⟨List.replicate n 'z'⟩ := by
  refine removeJunkPatterns_id _ ?_ ?_
  · intro x hx
    have hz : x = 'z' := List.eq_of_mem_replicate hx
    subst hz
    refine ⟨by decide, by decide, by decide, by decide, by decide, by decide⟩
  · intro x hx
    have hz : x = 'z' := List.eq_of_mem_replicate hx
    subst hz
    decide

/-- C7: whenever the cleaned extracted content falls below the
100-character minimum floor, `extractAndClean` raises the
content-too-short extraction failure.  The extractor takes no
strategy input, so the result is the same whether the HTML came from
Direct Fetch or Headless Render. -/
theorem short_content_always_fails (parseHost : String → Option String)
    (url : String) (p : ExtractParts)
    (h : (removeJunkPatterns (truncatedContent p)).length < MIN_CONTENT_LENGTH) :
    extractAndClean parseHost url p =
      Except.error ("Content too short after cleaning (" ++
        toString (removeJunkPatterns (truncatedContent p)).length ++ " characters)") := by
  unfold extractAndClean
  rw [if_pos h]

theorem short_content_always_fails_witness :
    (removeJunkPatterns (truncatedContent parts7)).length < MIN_CONTENT_LENGTH ∧
    extractAndClean hostSome "https://example.com/a" parts7 =
      Except.error ("Content too short after cleaning (" ++
        toString (removeJunkPatterns (truncatedContent parts7)).length ++
        " characters)") := by
  have htr : truncatedContent parts7 = ⟨List.replicate 10 'z'⟩ := by decide
  have hlen : (removeJunkPatterns (truncatedContent parts7)).length < MIN_CONTENT_LENGTH := by
    rw [htr, replicate_string_junkfree]
    decide
  exact ⟨hlen, short_content_always_fails hostSome "https://example.com/a" parts7 hlen⟩


theorem bigZ_data :
    ((⟨List.replicate 12000 'z'⟩ : String) ++ "...").data =
      List.replicate 12000 'z' ++ ['.', '.', '.'] := by
  rw [String.data_append]

theorem bigZ_chars :
    ∀ x ∈ ((⟨List.replicate 12000 'z'⟩ : String) ++ "...").data,
      x = 'z' ∨ x = '.' := by
  intro x hx
  rw [bigZ_data] at hx
  rcases List.mem_append.mp hx with hx | hx
  · exact Or.inl (List.eq_of_mem_replicate hx)
  · right
    simpa using hx

theorem bigZ_length :
    ((⟨List.replicate 12000 'z'⟩ : String) ++ "...").length =
      MAX_CONTENT_LENGTH + 3 := by
  show ((⟨List.replicate 12000 'z'⟩ : String) ++ "...").data.length = _
  rw [bigZ_data, List.length_append, List.length_replicate]
  rfl

theorem bigZ_junkfree :
    removeJunkPatterns ((⟨List.replicate 12000 'z'⟩ : String) ++ "...") =
      (⟨List.replicate 12000 'z'⟩ : String) ++ "..." := by
  refine removeJunkPatterns_id _ ?_ ?_
  · intro x hx
    rcases bigZ_chars x hx with hz | hd
    · subst hz
      refine ⟨by decide, by decide, by decide, by decide, by decide, by decide⟩
    · subst hd
      refine ⟨by decide, by decide, by decide, by decide, by decide, by decide⟩
  · intro x hx
    rcases bigZ_chars x hx with hz | hd
    · subst hz
      decide
    · subst hd
      decide

theorem bigZ_not_low_quality :
    isLowQualityContent ((⟨List.replicate 12000 'z'⟩ : String) ++ "...") = false := by
  unfold isLowQualityContent
  have h1 : hasTransportMarkers ((⟨List.replicate 12000 'z'⟩ : String) ++ "...") = false := by
    unfold hasTransportMarkers
    refine transportScan_no_digit _ ?_ none
    intro x hx
    rcases bigZ_chars x hx with hz | hd
    · subst hz; decide
    · subst hd; decide
  have h2 : jsIncludes ((⟨List.replicate 12000 'z'⟩ : String) ++ "...") "__next_f" = false := by
    unfold jsIncludes
    refine infixCheck_missing_head '_' _ _ ?_
    intro x hx
    rcases bigZ_chars x hx with hz | hd
    · subst hz; decide
    · subst hd; decide
  have h3 : jsIncludes ((⟨List.replicate 12000 'z'⟩ : String) ++ "...") "webpackChunk" = false := by
    unfold jsIncludes
    refine infixCheck_missing_head 'w' _ _ ?_
    intro x hx
    rcases bigZ_chars x hx with hz | hd
    · subst hz; decide
    · subst hd; decide
  have h4 : splitWsCount ((⟨List.replicate 12000 'z'⟩ : String) ++ "...") = 1 := by
    unfold splitWsCount
    rw [wsRuns_zero _ ?_ false]
    intro x hx
    rcases bigZ_chars x hx with hz | hd
    · subst hz; decide
    · subst hd; decide
  rw [h1, h2, h3, h4]
  decide

theorem cex_truncated :
    truncatedContent cexParts = (⟨List.replicate 12000 'z'⟩ : String) ++ "..." := by
  unfold truncatedContent cexParts
  have hrsc : ¬ MIN_CONTENT_LENGTH ≤ (if (false : Bool) then "" else "").length := by
    decide
  simp only [if_neg hrsc, if_false]
  have hlen : (⟨List.replicate 12001 'z'⟩ : String).length = 12001 := by
    show (List.replicate 12001 'z').length = 12001
    rw [List.length_replicate]
  rw [if_pos (by rw [hlen]; decide)]
  have htake : jsSubstring ⟨List.replicate 12001 'z'⟩ MAX_CONTENT_LENGTH =
      ⟨List.replicate 12000 'z'⟩ := by
    unfold jsSubstring
    show (⟨(List.replicate 12001 'z').take MAX_CONTENT_LENGTH⟩ : String) = _
    rw [List.take_replicate]
    rfl
  rw [htake]

/-- C8 counterexample: a successful extraction (no `error`) whose
`content` is 12,003 characters long, exceeding the claimed
12,000-character maximum (truncation cuts at 12,000 and then appends a
3-character ellipsis). -/
theorem content_exceeds_claimed_max :
    (extractAndClean hostSome "https://example.com/big" cexParts).toOption.map
      (fun r => (r.error, r.content.length)) =
      some (none, MAX_CONTENT_LENGTH + 3) := by
  unfold extractAndClean
  rw [cex_truncated]
  dsimp only
  rw [bigZ_junkfree]
  rw [if_neg (by rw [bigZ_length]; decide)]
  rw [if_neg (by rw [bigZ_not_low_quality]; simp)]
  simp only [Except.toOption, Option.map]
  rw [bigZ_length]


theorem jsSubstring_length (s : String) (n : Nat) :
    (jsSubstring s n).length = min n s.length := by
  show (s.data.take n).length = min n s.data.length
  exact List.length_take _ _

theorem string_length_append (s t : String) :
    (s ++ t).length = s.length + t.length := by
  show (s ++ t).data.length = s.data.length + t.data.length
  rw [String.data_append, List.length_append]

theorem truncatedContent_length_le (p : ExtractParts) :
    (truncatedContent p).length ≤ MAX_CONTENT_LENGTH + 3 := by
  unfold truncatedContent
  dsimp only
  generalize (if MIN_CONTENT_LENGTH ≤ (if p.needsRender then p.rsc else "").length
      then (if p.needsRender then p.rsc else "") else p.main) = e
  by_cases h : MAX_CONTENT_LENGTH < e.length
  · rw [if_pos h, string_length_append, jsSubstring_length]
    have h3 : ("..." : String).length = 3 := by decide
    rw [h3]
    omega
  · rw [if_neg h]
    omega

theorem extractAndClean_ok_shape (parseHost : String → Option String)
    (url : String) (p : ExtractParts) (r : ScrapeResult)
    (h : extractAndClean parseHost url p = Except.ok r) :
    r.error = none ∧ r.errorCode = none ∧
    MIN_CONTENT_LENGTH ≤ r.content.length ∧
    r.content.length ≤ MAX_CONTENT_LENGTH + 3 ∧
    r.summary = some (jsSubstring r.content (min SUMMARY_MAX_LENGTH r.content.length) ++
      (if min SUMMARY_MAX_LENGTH r.content.length < r.content.length then "..." else "")) := by
  unfold extractAndClean at h
  dsimp only at h
  by_cases h1 : (removeJunkPatterns (truncatedContent p)).length < MIN_CONTENT_LENGTH
  · rw [if_pos h1] at h
    cases h
  · rw [if_neg h1] at h
    by_cases h2 : isLowQualityContent (removeJunkPatterns (truncatedContent p)) = true
    · rw [if_pos h2] at h
      cases h
    · rw [if_neg h2] at h
      have hr := (Except.ok.injEq _ _).mp h.symm
      subst hr
      refine ⟨rfl, rfl, by simpa using h1, ?_, rfl⟩
      exact (removeJunkPatterns_length_le _).trans (truncatedContent_length_le p)


theorem getCachedScrape_hit_mem (c : Cache) (now : Nat) (u : String)
    (v : ScrapeResult) (h : (getCachedScrape c now u).1 = some v) :
    ∃ kv, kv ∈ c ∧ kv.2.val = v := by
  unfold getCachedScrape at h
  dsimp only at h
  cases he : mapGet (c.filter (fun kv => ¬ kv.2.exp ≤ now)) u with
  | none => rw [he] at h; cases h
  | some entry =>
    rw [he] at h
    dsimp only at h
    by_cases ht : now < entry.exp
    · rw [if_pos ht] at h
      have hv : entry.val = v := by
        simpa using h
      unfold mapGet at he
      rcases Option.map_eq_some'.mp he with ⟨kv, hfind, hkv⟩
      have hmem : kv ∈ c.filter (fun kv => ¬ kv.2.exp ≤ now) :=
        List.mem_of_find?_eq_some hfind
      exact ⟨kv, List.mem_of_mem_filter hmem, by rw [hkv, hv]⟩
    · rw [if_neg ht] at h
      cases h

theorem buildErrorResult_wellFormed (ph : String → Option String)
    (u m c : String) : resultWellFormed (buildErrorResult ph u m c) := by
  constructor
  · intro e he
    refine ⟨rfl, ?_⟩
    show jsStartsWith ("Unable to fetch content from " ++ u ++ ": " ++ m) _ = true
    rw [String.append_assoc, String.append_assoc]
    exact jsStartsWith_append _ _
  · intro hnone
    cases hnone

theorem invalidUrlResult_wellFormed (url e : String) :
    resultWellFormed (invalidUrlResult url e) := by
  constructor
  · intro e' he'
    refine ⟨rfl, ?_⟩
    show jsStartsWith ("Unable to fetch content from " ++ url ++ ": " ++ e) _ = true
    rw [String.append_assoc, String.append_assoc]
    exact jsStartsWith_append _ _
  · intro hnone
    cases hnone

theorem retryExtraction_ok_inv (env : CrawlEnv) (u e : String) (r : ScrapeResult)
    (h : retryExtractionWithBrowserless env u e = Except.ok r) :
    ∃ html, env.tryExtract u html = Except.ok r := by
  unfold retryExtractionWithBrowserless at h
  cases hb : env.fetchBrowserless u with
  | err c m =>
    rw [hb] at h
    cases h
  | ok html ct =>
    rw [hb] at h
    dsimp only at h
    cases he : env.tryExtract u html with
    | ok r2 =>
      rw [he] at h
      have : r2 = r := by simpa using h
      exact ⟨html, by rw [he, this]⟩
    | error e2 =>
      rw [he] at h
      cases h

theorem extractAndClean_ok_wellFormed (ph : String → Option String)
    (u : String) (p : ExtractParts) (r : ScrapeResult)
    (h : extractAndClean ph u p = Except.ok r) : resultWellFormed r := by
  obtain ⟨he, _, hmin, hmax, hsum⟩ := extractAndClean_ok_shape ph u p r h
  constructor
  · intro e hee
    rw [he] at hee
    cases hee
  · intro _
    exact ⟨hmin, hmax, hsum⟩

/-- C8 (amended): for every result of `scrapeWithCheerio` (with the
concrete extractor and any Cheerio-parse oracle, starting from a cache
whose entries already satisfy the invariant): when `error` is set,
`errorCode` is set and `content` is the synthesized
"Unable to fetch content from ..." placeholder; when `error` is absent,
`content` is cleaned extracted text of length between the 100-character
floor and 12,003 characters (the 12,000-character truncation maximum
plus the 3-character ellipsis), with the fixed 500-character summary
prefix rule.  The original 12,000 bound is corrected to 12,003 by the
counterexample. -/
theorem scrape_error_iff_placeholder (env : CrawlEnv) (parse : String → ExtractParts)
    (hx : ∀ u h, env.tryExtract u h = extractAndClean env.parseHostname u (parse h))
    (cache : Cache) (now : Nat) (url : String)
    (hcache : ∀ kv ∈ cache, resultWellFormed kv.2.val) :
    resultWellFormed (scrapeModel env cache now url).result := by
  unfold scrapeModel
  cases hv : env.validate url with
  | error e =>
    dsimp only
    exact invalidUrlResult_wellFormed url e
  | ok u =>
    dsimp only
    rcases hc : getCachedScrape cache now u with ⟨ov, c'⟩
    cases ov with
    | some v =>
      dsimp only
      obtain ⟨kv, hkv, hval⟩ := getCachedScrape_hit_mem cache now u v (by rw [hc])
      exact hval ▸ hcache kv hkv
    | none =>
      dsimp only
      rcases hf : fetchWithFallback env u with ⟨out, n, b⟩
      cases out with
      | error msg =>
        dsimp only [errorFinish]
        exact buildErrorResult_wellFormed _ _ _ _
      | ok pr =>
        rcases pr with ⟨html, isNative⟩
        dsimp only
        cases he : env.tryExtract u html with
        | ok r =>
          dsimp only [successFinish]
          rw [hx u html] at he
          exact extractAndClean_ok_wellFormed _ _ _ _ he
        | error e =>
          dsimp only
          by_cases hretry : (isNative && shouldRetryBrowserlessAfterExtractionFailure e) = true
          · rw [if_pos hretry]
            cases hr : retryExtractionWithBrowserless env u e with
            | ok r2 =>
              dsimp only [successFinish]
              obtain ⟨html2, he2⟩ := retryExtraction_ok_inv env u e r2 hr
              rw [hx u html2] at he2
              exact extractAndClean_ok_wellFormed _ _ _ _ he2
            | error m =>
              dsimp only [errorFinish]
              exact buildErrorResult_wellFormed _ _ _ _
          · rw [if_neg hretry]
            dsimp only [errorFinish]
            exact buildErrorResult_wellFormed _ _ _ _

theorem scrape_error_iff_placeholder_witness :
    resultWellFormed (scrapeModel env8 [] 0 "https://example.com/big").result :=
  scrape_error_iff_placeholder env8 parse8 (fun _ _ => rfl) [] 0
    "https://example.com/big" (by simp)


theorem buildErrorResult_failureWF (ph : String → Option String)
    (u m c : String) : failureWellFormed (buildErrorResult ph u m c) := by
  intro e he
  refine ⟨rfl, ?_, rfl⟩
  show jsStartsWith ("Unable to fetch content from " ++ u ++ ": " ++ m) _ = true
  rw [String.append_assoc, String.append_assoc]
  exact jsStartsWith_append _ _

theorem invalidUrlResult_failureWF (url e : String) :
    failureWellFormed (invalidUrlResult url e) := by
  intro e' he'
  refine ⟨rfl, ?_, rfl⟩
  show jsStartsWith ("Unable to fetch content from " ++ url ++ ": " ++ e) _ = true
  rw [String.append_assoc, String.append_assoc]
  exact jsStartsWith_append _ _

/-- C3: `scrapeWithCheerio` is total — every path produces a
well-formed `ScrapeResult` value (the model returns on all branches by
construction; the JS try/catch around extraction and the fetch chain is
the caught-path of the embedding).  On every failure path the returned
value has `error` and `errorCode` populated, a placeholder
"Unable to fetch content from ..." content, and a summary.  The
hypothesis on `tryExtract` states the extractor contract: a
non-throwing extraction never sets `error` (true of `extractAndClean`,
which always returns `error := none`). -/
theorem scrape_failure_fields_populated (env : CrawlEnv)
    (cache : Cache) (now : Nat) (url : String)
    (hok : ∀ u h r, env.tryExtract u h = Except.ok r → r.error = none)
    (hcache : ∀ kv ∈ cache, failureWellFormed kv.2.val) :
    failureWellFormed (scrapeModel env cache now url).result := by
  unfold scrapeModel
  cases hv : env.validate url with
  | error e =>
    dsimp only
    exact invalidUrlResult_failureWF url e
  | ok u =>
    dsimp only
    rcases hc : getCachedScrape cache now u with ⟨ov, c'⟩
    cases ov with
    | some v =>
      dsimp only
      obtain ⟨kv, hkv, hval⟩ := getCachedScrape_hit_mem cache now u v (by rw [hc])
      exact hval ▸ hcache kv hkv
    | none =>
      dsimp only
      rcases hf : fetchWithFallback env u with ⟨out, n, b⟩
      cases out with
      | error msg =>
        dsimp only [errorFinish]
        exact buildErrorResult_failureWF _ _ _ _
      | ok pr =>
        rcases pr with ⟨html, isNative⟩
        dsimp only
        cases he : env.tryExtract u html with
        | ok r =>
          dsimp only [successFinish]
          intro e hee
          rw [hok u html r he] at hee
          cases hee
        | error e =>
          dsimp only
          by_cases hretry : (isNative && shouldRetryBrowserlessAfterExtractionFailure e) = true
          · rw [if_pos hretry]
            cases hr : retryExtractionWithBrowserless env u e with
            | ok r2 =>
              dsimp only [successFinish]
              intro e2 hee
              obtain ⟨html2, he2⟩ := retryExtraction_ok_inv env u e r2 hr
              rw [hok u html2 r2 he2] at hee
              cases hee
            | error m =>
              dsimp only [errorFinish]
              exact buildErrorResult_failureWF _ _ _ _
          · rw [if_neg hretry]
            dsimp only [errorFinish]
            exact buildErrorResult_failureWF _ _ _ _

theorem scrape_failure_fields_populated_witness :
    failureWellFormed (scrapeModel env3 [] 0 "https://blocked.example.com").result :=
  scrape_failure_fields_populated env3 [] 0 "https://blocked.example.com"
    (fun u h r hr => by simp [env3] at hr) (by simp)


/-- C2: when Direct Fetch succeeds but extraction fails with
content-too-short or quality-check-failed, the orchestrator retries
exactly once by fetching via Headless Render and re-running extraction
on that HTML; no retry happens for any other extraction-failure cause,
nor when the HTML already came from Headless Render. -/
theorem extraction_failure_retry_policy (env : CrawlEnv)
    (cache : Cache) (now : Nat) (url u : String)
    (hv : env.validate url = Except.ok u)
    (hm : (getCachedScrape cache now u).1 = none) :
    RetryPolicyProp env cache now url u := by
  unfold RetryPolicyProp
  rcases hg : getCachedScrape cache now u with ⟨ov, c'⟩
  rw [hg] at hm
  dsimp only at hm
  subst hm
  constructor
  · intro html ct e hn he
    have hf : fetchWithFallback env u =
        { outcome := Except.ok (html, true), nativeCalls := 1, browserlessCalls := 0 } := by
      unfold fetchWithFallback
      rw [hn]
    have hmodel : scrapeModel env cache now url =
        (if (true && shouldRetryBrowserlessAfterExtractionFailure e) = true then
          (match retryExtractionWithBrowserless env u e with
           | Except.ok r => successFinish env c' now u r 1 1
           | Except.error m => errorFinish env c' now u m 1 1)
         else errorFinish env c' now u e 1 0) := by
      unfold scrapeModel
      rw [hv]
      dsimp only
      rw [hg]
      dsimp only
      rw [hf]
      dsimp only
      rw [he]
    rw [hmodel]
    by_cases hsr : shouldRetryBrowserlessAfterExtractionFailure e = true
    · rw [hsr]
      simp only [Bool.true_and, if_pos]
      constructor
      · cases hr : retryExtractionWithBrowserless env u e with
        | ok r => simp [successFinish, hsr]
        | error m => simp [errorFinish, hsr]
      · intro _
        cases hr : retryExtractionWithBrowserless env u e with
        | ok r => simp [successFinish]
        | error m => simp [errorFinish]
    · have hsr' : shouldRetryBrowserlessAfterExtractionFailure e = false := by
        simpa using hsr
      rw [hsr']
      simp only [Bool.true_and, Bool.false_eq_true, if_false]
      exact ⟨by simp [errorFinish, hsr'], fun hc => absurd hc (by simp)⟩
  · intro code msg html ct e hn hs hb he
    have hf : fetchWithFallback env u =
        { outcome := Except.ok (html, false), nativeCalls := 1, browserlessCalls := 1 } := by
      unfold fetchWithFallback
      rw [hn, hb]
      simp [hs]
    have hmodel : scrapeModel env cache now url = errorFinish env c' now u e 1 1 := by
      unfold scrapeModel
      rw [hv]
      dsimp only
      rw [hg]
      dsimp only
      rw [hf]
      dsimp only
      rw [he]
      dsimp only
      rw [if_neg (by simp)]
    rw [hmodel]
    simp [errorFinish]

theorem extraction_failure_retry_policy_witness :
    env2.validate "https://spa.example.com" = Except.ok "https://spa.example.com" ∧
    (getCachedScrape [] 0 "https://spa.example.com").1 = none ∧
    RetryPolicyProp env2 [] 0 "https://spa.example.com" "https://spa.example.com" :=
  ⟨rfl, rfl,
   extraction_failure_retry_policy env2 [] 0 "https://spa.example.com"
     "https://spa.example.com" rfl rfl⟩


theorem cacheScrapeResult_empty (u : String) (v : ScrapeResult) (ttl now : Nat) :
    cacheScrapeResult [] u v ttl now = [(u, { exp := now + ttl, val := v })] := by
  unfold cacheScrapeResult mapSet
  simp only [List.any_nil, Bool.false_eq_true, if_false, List.nil_append]
  rw [enforceCapacity]
  simp [SCRAPE_CACHE_MAX_ENTRIES]

theorem errorFinish_error (env : CrawlEnv) (c : Cache) (now : Nat) (u m : String)
    (n b : Nat) : (errorFinish env c now u m n b).result.error = some m := rfl

theorem scrapeModel_empty_success_shape (env : CrawlEnv) (now : Nat) (url : String)
    (herr : (scrapeModel env [] now url).result.error = none) :
    ∃ u, env.validate url = Except.ok u ∧
      (scrapeModel env [] now url).cache =
        [(u, { exp := now + env.successTtlMs,
               val := (scrapeModel env [] now url).result })] ∧
      (scrapeModel env [] now url).nativeCalls ≤ 1 ∧
      (scrapeModel env [] now url).browserlessCalls ≤ 1 := by
  cases hv : env.validate url with
  | error e =>
    exfalso
    have hbad : (scrapeModel env [] now url).result = invalidUrlResult url e := by
      unfold scrapeModel
      rw [hv]
    rw [hbad] at herr
    simp [invalidUrlResult] at herr
  | ok u =>
    have hg : getCachedScrape [] now u = (none, []) := rfl
    have hstep : scrapeModel env [] now url =
        (match fetchWithFallback env u with
         | { outcome := Except.error msg, nativeCalls := n, browserlessCalls := b } =>
           errorFinish env [] now u msg n b
         | { outcome := Except.ok (html, isNative), nativeCalls := n, browserlessCalls := b } =>
           match env.tryExtract u html with
           | Except.ok r => successFinish env [] now u r n b
           | Except.error e =>
             if isNative && shouldRetryBrowserlessAfterExtractionFailure e then
               match retryExtractionWithBrowserless env u e with
               | Except.ok r => successFinish env [] now u r n (b + 1)
               | Except.error m => errorFinish env [] now u m n (b + 1)
             else errorFinish env [] now u e n b) := by
      unfold scrapeModel
      rw [hv]
      dsimp only
      rw [hg]
    refine ⟨u, rfl, ?_⟩
    cases hn : env.fetchNative u with
    | ok html ct =>
      have hf : fetchWithFallback env u =
          { outcome := Except.ok (html, true), nativeCalls := 1, browserlessCalls := 0 } := by
        unfold fetchWithFallback
        rw [hn]
      rw [hstep, hf] at herr ⊢
      dsimp only at herr ⊢
      cases he : env.tryExtract u html with
      | ok r =>
        dsimp only [successFinish]
        rw [cacheScrapeResult_empty]
        exact ⟨rfl, by omega, by omega⟩
      | error e =>
        rw [he] at herr
        dsimp only at herr ⊢
        by_cases hretry : (true && shouldRetryBrowserlessAfterExtractionFailure e) = true
        · rw [if_pos hretry] at herr ⊢
          cases hr : retryExtractionWithBrowserless env u e with
          | ok r2 =>
            dsimp only [successFinish]
            rw [cacheScrapeResult_empty]
            exact ⟨rfl, by omega, by omega⟩
          | error m =>
            rw [hr] at herr
            rw [errorFinish_error] at herr
            cases herr
        · rw [if_neg hretry] at herr
          rw [errorFinish_error] at herr
          cases herr
    | err code msg =>
      by_cases hs : shouldAttemptBrowserless code = true
      · cases hb : env.fetchBrowserless u with
        | ok html ct =>
          have hf : fetchWithFallback env u =
              { outcome := Except.ok (html, false), nativeCalls := 1,
                browserlessCalls := 1 } := by
            unfold fetchWithFallback
            rw [hn, hb]
            simp [hs]
          rw [hstep, hf] at herr ⊢
          dsimp only at herr ⊢
          cases he : env.tryExtract u html with
          | ok r =>
            dsimp only [successFinish]
            rw [cacheScrapeResult_empty]
            exact ⟨rfl, by omega, by omega⟩
          | error e =>
            rw [he] at herr
            dsimp only at herr
            rw [if_neg (by simp)] at herr
            rw [errorFinish_error] at herr
            cases herr
        | err bc bm =>
          have hf : fetchWithFallback env u =
              { outcome := Except.error (msg ++ "; Browserless fallback failed: " ++ bm),
                nativeCalls := 1, browserlessCalls := 1 } := by
            unfold fetchWithFallback
            rw [hn, hb]
            simp [hs]
          rw [hstep, hf] at herr
          dsimp only at herr
          rw [errorFinish_error] at herr
          cases herr
      · have hf : fetchWithFallback env u =
            { outcome := Except.error msg, nativeCalls := 1, browserlessCalls := 0 } := by
          unfold fetchWithFallback
          rw [hn]
          simp [hs]
        rw [hstep, hf] at herr
        dsimp only at herr
        rw [errorFinish_error] at herr
        cases herr


/-- C4: a second `scrapeWithCheerio` call for the same URL within the
success TTL of a first call's successful result returns the identical
`ScrapeResult` and performs no strategy calls, while the first call
invoked each strategy at most once — so the network is touched at most
once per strategy across the two calls. -/
theorem scrape_idempotent_within_ttl (env : CrawlEnv) (url : String)
    (now1 now2 : Nat)
    (herr : (scrapeModel env [] now1 url).result.error = none)
    (hts : now2 < now1 + env.successTtlMs) :
    (scrapeModel env (scrapeModel env [] now1 url).cache now2 url).result =
      (scrapeModel env [] now1 url).result ∧
    (scrapeModel env (scrapeModel env [] now1 url).cache now2 url).nativeCalls = 0 ∧
    (scrapeModel env (scrapeModel env [] now1 url).cache now2 url).browserlessCalls = 0 ∧
    (scrapeModel env [] now1 url).nativeCalls ≤ 1 ∧
    (scrapeModel env [] now1 url).browserlessCalls ≤ 1 := by
  obtain ⟨u, hv, hcache, hn1, hb1⟩ := scrapeModel_empty_success_shape env now1 url herr
  generalize hMdef : scrapeModel env [] now1 url = M at hcache hn1 hb1 ⊢
  have hget : getCachedScrape M.cache now2 u =
      (some M.result, [(u, { exp := now1 + env.successTtlMs, val := M.result })]) := by
    rw [hcache]
    unfold getCachedScrape
    dsimp only
    have hkeep : ¬ (now1 + env.successTtlMs ≤ now2) := by omega
    rw [List.filter_cons_of_pos (by simpa using hkeep), List.filter_nil]
    have hfind : mapGet
        [(u, { exp := now1 + env.successTtlMs, val := M.result })] u =
        some { exp := now1 + env.successTtlMs, val := M.result } := by
      unfold mapGet
      simp [List.find?]
    rw [hfind]
    dsimp only
    rw [if_pos (by omega : now2 < now1 + env.successTtlMs)]
    unfold mapDelete
    simp [List.filter]
  have hM2 : scrapeModel env M.cache now2 url =
      { result := M.result,
        cache := [(u, { exp := now1 + env.successTtlMs, val := M.result })],
        nativeCalls := 0, browserlessCalls := 0 } := by
    unfold scrapeModel
    rw [hv]
    dsimp only
    rw [hget]
  rw [hM2]
  exact ⟨rfl, rfl, rfl, hn1, hb1⟩

theorem scrape_idempotent_within_ttl_witness :
    (scrapeModel env4 [] 0 "https://ok.example.com").result.error = none ∧
    (500 : Nat) < 0 + env4.successTtlMs ∧
    ((scrapeModel env4 (scrapeModel env4 [] 0 "https://ok.example.com").cache 500
        "https://ok.example.com").result =
      (scrapeModel env4 [] 0 "https://ok.example.com").result ∧
    (scrapeModel env4 (scrapeModel env4 [] 0 "https://ok.example.com").cache 500
        "https://ok.example.com").nativeCalls = 0 ∧
    (scrapeModel env4 (scrapeModel env4 [] 0 "https://ok.example.com").cache 500
        "https://ok.example.com").browserlessCalls = 0 ∧
    (scrapeModel env4 [] 0 "https://ok.example.com").nativeCalls ≤ 1 ∧
    (scrapeModel env4 [] 0 "https://ok.example.com").browserlessCalls ≤ 1) :=
  ⟨rfl, by decide,
   scrape_idempotent_within_ttl env4 "https://ok.example.com" 0 500 rfl (by decide)⟩

end Researchly
